import Mathlib

/-!
# kms-core: the composite mixer (`src/kmscompositemixer.c`) and the socket
set-up of the RTP end point (`src/kmsrtpendpoint.c`)

A shallow embedding of the port registry, the layout computation, the teardown
protocol and the pad-name parsing of `KmsCompositeMixer`, and of the RTP/RTCP
socket-pair acquisition of `KmsRtpEndPoint`, followed by theorems about them.

Modelling conventions.

* `gint` values are `Int`; C division and remainder are `Int.tdiv` and
  `Int.tmod` (truncation toward zero).  `layout_in_gint_range` shows that the
  layout arithmetic stays inside `[0, G_MAXINT]` for in-range inputs, so no
  wrap-around is involved.
* GStreamer/GLib objects are opaque: a pointer field is a `Bool` (non-NULL) or
  an `Option` carrying the properties the code sets on the object.
* Calls into GStreamer, GLib and the base hub are recorded, in program order,
  in the `log` field of the state.
* The `GHashTable` registry is the list of its values in iteration order; the
  key of an entry is its `id` field (`create_gint (port_id)` and
  `data->id = id` are the same number).  A new key is appended, the position
  GLib gives it being unspecified.
* Work that the code hands to GLib/GStreamer for later is kept in the state:
  `eos_in_flight` (EOS injected by the destroy-notify and not yet seen by the
  probe on the mixer pad), `loop` (tasks queued on the `KmsLoop`) and
  `timeouts` (armed 2-second timers, each with the record as the teardown
  left it).
* A record is written through its pointer.  link_to_videomixer can still run
  for a record that has left the registry: port_data_create does not keep the
  id of the first-data probe, so the teardown's gst_pad_remove_probe (with 0)
  removes nothing.  What it writes to such a record is kept in `late_spliced`.
* C strings are `List Char`, a NULL string is `none`.  The macro
  AUDIO_SRC_PAD_PREFIX comes from a header that is not among the sources and
  is a parameter of the functions that use it.
* What the operating system answers when sockets are created and bound is a
  parameter of the socket functions.  A socket carries the port it is bound
  to; a bind to port 0 binds to a port the system picks, as the code relies on
  for the first socket of a pair.  A loop bounded by a retry counter is a
  recursion on fuel, shown never to run out.
-/

namespace Kms

/-- The macro N_ELEMENTS_WIDTH. -/
def N_ELEMENTS_WIDTH : Int := 2

/-- The largest `gint`. -/
def G_MAXINT : Int := 2147483647

/-- Event types the two pad probes distinguish. -/
inductive GstEventType where
  | STREAM_START
  | EOS
  | OTHER
  deriving DecidableEq, Repr

/-- Return values of a pad probe. -/
inductive GstPadProbeReturn where
  | PASS
  | OK
  | REMOVE
  deriving DecidableEq, Repr

/-- Handles of the objects the code works on; per-port objects carry the port id. -/
inductive Obj where
  | videomixer
  | audiomixer
  | mixer_video_agnostic
  | videorate_mixer
  | video_agnostic (id : Int)
  | videorate (id : Int)
  | videoscale (id : Int)
  | capsfilter (id : Int)
  | video_mixer_pad (id : Int)
  | agnostic_sink_pad (id : Int)
  | audiosink (id : Int)
  deriving DecidableEq, Repr

/-- Functions of the file that are registered as callbacks or tasks. -/
inductive Callback where
  | link_to_videomixer
  | cb_EOS_received
  | remove_elements_from_pipeline
  | remove_agnostics_from_pipeline
  | pad_added_cb
  | pad_removed_cb
  deriving DecidableEq, Repr

/-- Calls into GStreamer, GLib and the base hub, as they appear in the source. -/
inductive Call where
  | gst_element_factory_make (o : Obj)
  | gst_bin_add (o : Obj)
  | gst_bin_remove (o : Obj)
  | gst_element_sync_state_with_parent (o : Obj)
  | gst_element_link (a b : Obj)
  | gst_element_unlink (a b : Obj)
  | gst_element_link_pads (a b pad : Obj)
  | gst_element_request_pad (mixer : Obj)
  | gst_element_release_request_pad (mixer pad : Obj)
  | gst_element_get_static_pad (o pad : Obj)
  | gst_element_send_event_eos (o : Obj)
  | gst_pad_send_event_eos (pad : Obj)
  | gst_element_set_state_null (o : Obj)
  | gst_pad_add_probe (pad : Obj) (cb : Callback)
  | gst_pad_remove_probe (pad : Obj) (probe_id : Int)
  | g_object_ref (o : Obj)
  | g_object_unref (o : Obj)
  | g_object_set_caps (o : Obj) (width height : Int)
  | g_object_set_xpos_ypos (pad : Obj) (left top : Int)
  | g_object_set_average_period (o : Obj)
  | g_object_set_background (o : Obj)
  | g_signal_connect (o : Obj) (cb : Callback)
  | g_timeout_add_seconds (seconds : Nat) (cb : Callback) (id : Int)
  | kms_loop_idle_add_full (cb : Callback) (id : Int)
  | g_slice_free (id : Int)
  | kms_base_hub_link_video_sink (id : Int)
  | kms_base_hub_link_audio_sink (id : Int)
  | kms_base_hub_link_video_src (id : Int)
  | kms_base_hub_link_audio_src (id : Int)
  | kms_base_hub_unlink_video_sink (id : Int)
  | kms_base_hub_unlink_audio_sink (id : Int)
  | kms_base_hub_unlink_video_src (id : Int)
  | parent_unhandle_port (id : Int)
  deriving DecidableEq, Repr

/-- The caps a capsfilter is given: "video/x-raw", AYUV, 15/1 and these two sizes. -/
structure Caps where
  width : Int
  height : Int
  deriving DecidableEq, Repr

/-- A capsfilter element with its "caps" property (unset on a new element). -/
structure Capsfilter where
  caps : Option Caps
  deriving DecidableEq, Repr

/-- A request pad of the videomixer: its name index and the "xpos"/"ypos"
properties (0 on a new pad). -/
structure MixerPad where
  name : Nat
  xpos : Int
  ypos : Int
  deriving DecidableEq, Repr

/-- The struct _KmsCompositeMixerPortData (the back pointer `mixer` is the state
itself; `audio_agnostic` is never assigned and is left out). -/
structure KmsCompositeMixerPortData where
  id : Int
  video_agnostic : Bool
  capsfilter : Option Capsfilter
  videoscale : Bool
  videorate : Bool
  video_mixer_pad : Option MixerPad
  agnostic_sink_pad : Bool
  input : Bool
  probe_id : Int
  deriving DecidableEq, Repr

/-- The struct _KmsCompositeMixerPrivate together with the deferred work and the call log. -/
structure KmsCompositeMixer where
  videomixer : Bool
  audiomixer : Bool
  mixer_video_agnostic : Bool
  ports : List KmsCompositeMixerPortData
  n_elems : Int
  output_width : Int
  output_height : Int
  eos_in_flight : List KmsCompositeMixerPortData
  loop : List KmsCompositeMixerPortData
  timeouts : List KmsCompositeMixerPortData
  late_spliced : List KmsCompositeMixerPortData
  log : List Call
  deriving DecidableEq, Repr

/-- The width computed at lines 102-106. -/
def slot_width (n_elems output_width : Int) : Int :=
  if n_elems = 1 then output_width else output_width.tdiv N_ELEMENTS_WIDTH

/-- The height computed at lines 108-114. -/
def slot_height (n_elems output_height : Int) : Int :=
  if n_elems < N_ELEMENTS_WIDTH then output_height
  else output_height.tdiv (n_elems.tdiv N_ELEMENTS_WIDTH + n_elems.tmod N_ELEMENTS_WIDTH)

/-- The value of `top` at line 122. -/
def slot_top (counter height : Int) : Int :=
  counter.tdiv N_ELEMENTS_WIDTH * height

/-- The value of `left` at line 123. -/
def slot_left (counter width : Int) : Int :=
  counter.tmod N_ELEMENTS_WIDTH * width

/-- The two g_object_set calls of one loop iteration, applied to the port:
the caps go to the capsfilter, the position to the mixer pad.  g_object_set on
a NULL object only emits a critical warning and changes nothing. -/
def set_geometry (p : KmsCompositeMixerPortData) (width height left top : Int) :
    KmsCompositeMixerPortData :=
  { p with
    capsfilter := p.capsfilter.map (fun _ => { caps := some { width := width, height := height } }),
    video_mixer_pad := p.video_mixer_pad.map (fun pad => { pad with xpos := left, ypos := top }) }

/-- The log entries of one loop iteration. -/
def set_geometry_calls (p : KmsCompositeMixerPortData) (width height left top : Int) :
    List Call :=
  (if p.capsfilter.isSome then [Call.g_object_set_caps (Obj.capsfilter p.id) width height] else [])
  ++ (if p.video_mixer_pad.isSome then
        [Call.g_object_set_xpos_ypos (Obj.video_mixer_pad p.id) left top] else [])

/-- The while loop of kms_composite_mixer_recalculate_sizes over the remaining
entries of the iterator, with the current `counter`.  The first entry whose
`input` is FALSE makes the function return: neither it nor any later entry is
visited. -/
def recalculate_loop (n_elems output_width output_height : Int) :
    Int → List KmsCompositeMixerPortData → List KmsCompositeMixerPortData × List Call
  | _, [] => ([], [])
  | counter, port_data :: rest =>
    if port_data.input = false then
      (port_data :: rest, [])
    else
      let width := slot_width n_elems output_width
      let height := slot_height n_elems output_height
      let top := slot_top counter height
      let left := slot_left counter width
      let r := recalculate_loop n_elems output_width output_height (counter + 1) rest
      (set_geometry port_data width height left top :: r.1,
        set_geometry_calls port_data width height left top ++ r.2)

/-- The function kms_composite_mixer_recalculate_sizes. -/
def kms_composite_mixer_recalculate_sizes (self : KmsCompositeMixer) : KmsCompositeMixer :=
  let r := recalculate_loop self.n_elems self.output_width self.output_height 0 self.ports
  { self with ports := r.1, log := self.log ++ r.2 }

/-- Geometry of a slot, in the words of the layout engine. -/
structure Geometry where
  slot_width : Int
  slot_height : Int
  x_offset : Int
  y_offset : Int
  deriving DecidableEq, Repr

/-- The geometry a port currently has: the caps on its capsfilter and the
position on its mixer pad; `none` when one of them is missing or unset. -/
def port_geometry (p : KmsCompositeMixerPortData) : Option Geometry :=
  match p.capsfilter, p.video_mixer_pad with
  | some { caps := some c }, some pad =>
    some { slot_width := c.width, slot_height := c.height, x_offset := pad.xpos, y_offset := pad.ypos }
  | _, _ => none

/-- A port that went through the splice of link_to_videomixer with a granted
slot: `input` is TRUE and the capsfilter and the mixer pad exist. -/
def Spliced (p : KmsCompositeMixerPortData) : Prop :=
  p.input = true ∧ p.capsfilter.isSome = true ∧ p.video_mixer_pad.isSome = true

instance (p : KmsCompositeMixerPortData) : Decidable (Spliced p) := by
  unfold Spliced; infer_instance

/-- The call g_hash_table_lookup on the registry: the entry stored under `id`. -/
def g_hash_table_lookup (ports : List KmsCompositeMixerPortData) (id : Int) :
    Option KmsCompositeMixerPortData :=
  ports.find? (fun p => p.id == id)

/-- The registry without the entry stored under `id` (the node removal inside
g_hash_table_remove, before the destroy-notify runs). -/
def hash_table_erase (ports : List KmsCompositeMixerPortData) (id : Int) :
    List KmsCompositeMixerPortData :=
  match ports with
  | [] => []
  | p :: rest => if p.id = id then rest else p :: hash_table_erase rest id

/-- A write through the pointer `data`: the registry entry with the same id
becomes `data`. -/
def hash_table_store (ports : List KmsCompositeMixerPortData) (data : KmsCompositeMixerPortData) :
    List KmsCompositeMixerPortData :=
  match ports with
  | [] => []
  | p :: rest => if p.id = data.id then data :: rest else p :: hash_table_store rest data

/-- The function kms_composite_mixer_port_data_destroy, the value destroy-notify
of the registry.  The result of gst_element_send_event only selects a warning
and is not modelled. -/
def kms_composite_mixer_port_data_destroy (self : KmsCompositeMixer)
    (port_data : KmsCompositeMixerPortData) : KmsCompositeMixer :=
  let id := port_data.id
  let common : List Call :=
    [ Call.kms_base_hub_unlink_video_sink id,
      Call.kms_base_hub_unlink_audio_sink id,
      Call.gst_element_get_static_pad Obj.audiomixer (Obj.audiosink id),
      Call.gst_element_release_request_pad Obj.audiomixer (Obj.audiosink id),
      Call.g_object_unref (Obj.audiosink id) ]
  if port_data.input then
    { self with
      eos_in_flight := self.eos_in_flight ++ [port_data],
      log := self.log ++ common ++
        [ Call.gst_element_unlink (Obj.video_agnostic id) (Obj.videorate id),
          Call.gst_element_send_event_eos (Obj.videorate id) ] }
  else
    { self with
      timeouts := self.timeouts ++ [port_data],
      log := self.log ++ common ++
        [ Call.gst_pad_remove_probe (Obj.agnostic_sink_pad id) port_data.probe_id,
          Call.g_object_ref (Obj.video_agnostic id),
          Call.gst_bin_remove (Obj.video_agnostic id),
          Call.g_timeout_add_seconds 2 Callback.remove_agnostics_from_pipeline id ] }

/-- The function kms_composite_mixer_unhandle_port: g_hash_table_remove (which
runs the destroy-notify on the removed value, after the node is gone) and then
the parent class's unhandle_port. -/
def kms_composite_mixer_unhandle_port (self : KmsCompositeMixer) (id : Int) : KmsCompositeMixer :=
  let s1 :=
    match g_hash_table_lookup self.ports id with
    | none => self
    | some port_data =>
      kms_composite_mixer_port_data_destroy
        { self with ports := hash_table_erase self.ports id } port_data
  { s1 with log := s1.log ++ [Call.parent_unhandle_port id] }

/-- The record built by kms_composite_mixer_port_data_create (g_slice_new0
zeroes every field; the id of the probe installed here is not stored). -/
def new_port_data (id : Int) : KmsCompositeMixerPortData :=
  { id := id, video_agnostic := true, capsfilter := none, videoscale := false,
    videorate := false, video_mixer_pad := none, agnostic_sink_pad := true,
    input := false, probe_id := 0 }

/-- The calls made by kms_composite_mixer_port_data_create. -/
def port_data_create_calls (id : Int) : List Call :=
  [ Call.gst_element_factory_make (Obj.video_agnostic id),
    Call.gst_bin_add (Obj.video_agnostic id),
    Call.gst_element_sync_state_with_parent (Obj.video_agnostic id),
    Call.kms_base_hub_link_video_sink id,
    Call.kms_base_hub_link_audio_sink id,
    Call.gst_element_get_static_pad (Obj.video_agnostic id) (Obj.agnostic_sink_pad id),
    Call.gst_pad_add_probe (Obj.agnostic_sink_pad id) Callback.link_to_videomixer ]

/-- The function kms_composite_mixer_port_data_create. -/
def kms_composite_mixer_port_data_create (self : KmsCompositeMixer) (id : Int) :
    KmsCompositeMixerPortData × KmsCompositeMixer :=
  (new_port_data id, { self with log := self.log ++ port_data_create_calls id })

/-- The call g_hash_table_insert: a new key gets a new node; an existing key
keeps its node, the value is replaced and the old value goes to the
destroy-notify. -/
def g_hash_table_insert (self : KmsCompositeMixer) (port_data : KmsCompositeMixerPortData) :
    KmsCompositeMixer :=
  match g_hash_table_lookup self.ports port_data.id with
  | none => { self with ports := self.ports ++ [port_data] }
  | some old =>
    kms_composite_mixer_port_data_destroy
      { self with ports := hash_table_store self.ports port_data } old

/-- The lazy creation of the shared video mixer in kms_composite_mixer_handle_port. -/
def bootstrap_videomixer (self : KmsCompositeMixer) : KmsCompositeMixer :=
  if self.videomixer then self
  else
    { self with
      videomixer := true,
      mixer_video_agnostic := true,
      log := self.log ++
        [ Call.gst_element_factory_make Obj.videorate_mixer,
          Call.gst_element_factory_make Obj.videomixer,
          Call.g_object_set_background Obj.videomixer,
          Call.gst_element_factory_make Obj.mixer_video_agnostic,
          Call.gst_bin_add Obj.videomixer,
          Call.gst_bin_add Obj.videorate_mixer,
          Call.gst_bin_add Obj.mixer_video_agnostic,
          Call.gst_element_sync_state_with_parent Obj.videomixer,
          Call.gst_element_sync_state_with_parent Obj.videorate_mixer,
          Call.gst_element_sync_state_with_parent Obj.mixer_video_agnostic,
          Call.gst_element_link Obj.videomixer Obj.videorate_mixer,
          Call.gst_element_link Obj.videorate_mixer Obj.mixer_video_agnostic ] }

/-- The lazy creation of the shared audio mixer in kms_composite_mixer_handle_port. -/
def bootstrap_audiomixer (self : KmsCompositeMixer) : KmsCompositeMixer :=
  if self.audiomixer then self
  else
    { self with
      audiomixer := true,
      log := self.log ++
        [ Call.gst_element_factory_make Obj.audiomixer,
          Call.gst_bin_add Obj.audiomixer,
          Call.gst_element_sync_state_with_parent Obj.audiomixer,
          Call.g_signal_connect Obj.audiomixer Callback.pad_added_cb,
          Call.g_signal_connect Obj.audiomixer Callback.pad_removed_cb ] }

/-- The function kms_composite_mixer_handle_port; `port_id` is what the parent
class's handle_port returned.  The result is the returned id and the new state. -/
def kms_composite_mixer_handle_port (self : KmsCompositeMixer) (port_id : Int) :
    Int × KmsCompositeMixer :=
  if port_id < 0 then (port_id, self)
  else
    let s1 := bootstrap_videomixer self
    let s2 := bootstrap_audiomixer s1
    let s3 := { s2 with log := s2.log ++ [Call.kms_base_hub_link_video_src port_id] }
    let r := kms_composite_mixer_port_data_create s3 port_id
    (port_id, g_hash_table_insert r.2 r.1)

/-- The function link_to_videomixer, the probe installed on the adapter's sink
pad, run for the port `data` on an event of type `info`.  `sink_pad_template`
says whether gst_element_class_get_pad_template found "sink_%u" and
`request_pad` is the name index of the pad gst_element_request_pad returned
(`none` for NULL).  With a template and a NULL pad, GST_OBJECT_NAME reads
through the NULL pointer: the result is `none`.  gst_pad_add_probe on a NULL
pad returns 0, on the new pad it returns its first probe id, 1.  The fields
are written through the pointer `data`: into the registry when `data` is the
record registered under its id, and otherwise (the record has left the
registry) into the record itself, kept in `late_spliced`; n_elems++ and the
recompute happen in both cases. -/
def link_to_videomixer (self : KmsCompositeMixer) (data : KmsCompositeMixerPortData)
    (info : GstEventType) (sink_pad_template : Bool) (request_pad : Option Nat) :
    Option (GstPadProbeReturn × KmsCompositeMixer) :=
  if info ≠ GstEventType.STREAM_START then
    some (GstPadProbeReturn.PASS, self)
  else
    let id := data.id
    let d1 : KmsCompositeMixerPortData :=
      { data with videoscale := true, capsfilter := some { caps := none }, videorate := true,
                  input := true }
    let chain : List Call :=
      [ Call.gst_element_factory_make (Obj.videoscale id),
        Call.gst_element_factory_make (Obj.capsfilter id),
        Call.gst_element_factory_make (Obj.videorate id),
        Call.gst_bin_add (Obj.videorate id),
        Call.gst_bin_add (Obj.videoscale id),
        Call.gst_bin_add (Obj.capsfilter id),
        Call.gst_element_sync_state_with_parent (Obj.videoscale id),
        Call.gst_element_sync_state_with_parent (Obj.capsfilter id),
        Call.gst_element_sync_state_with_parent (Obj.videorate id),
        Call.g_object_set_average_period (Obj.videorate id),
        Call.gst_element_link (Obj.videorate id) (Obj.videoscale id),
        Call.gst_element_link (Obj.videoscale id) (Obj.capsfilter id) ]
    let slot : Option (KmsCompositeMixerPortData × List Call) :=
      if sink_pad_template then
        match request_pad with
        | none => none
        | some name =>
          some ({ d1 with video_mixer_pad := some { name := name, xpos := 0, ypos := 0 } },
            [ Call.gst_element_request_pad Obj.videomixer,
              Call.gst_element_link_pads (Obj.capsfilter id) Obj.videomixer
                (Obj.video_mixer_pad id) ])
      else some (d1, [])
    match slot with
    | none => none
    | some (d2, slot_calls) =>
      let probe : Int × List Call :=
        if d2.video_mixer_pad.isSome then
          (1, [Call.gst_pad_add_probe (Obj.video_mixer_pad id) Callback.cb_EOS_received])
        else (0, [])
      let d3 : KmsCompositeMixerPortData := { d2 with probe_id := probe.1 }
      let registered : Bool := decide (g_hash_table_lookup self.ports id = some data)
      let s1 : KmsCompositeMixer :=
        { self with
          ports := if registered then hash_table_store self.ports d3 else self.ports,
          late_spliced := if registered then self.late_spliced else self.late_spliced ++ [d3],
          n_elems := self.n_elems + 1,
          log := self.log ++ chain ++ slot_calls ++
            [Call.gst_element_link (Obj.video_agnostic id) (Obj.videorate id)] ++ probe.2 }
      some (GstPadProbeReturn.REMOVE, kms_composite_mixer_recalculate_sizes s1)

/-- The function cb_EOS_received, the probe on the port's mixer pad. -/
def cb_EOS_received (self : KmsCompositeMixer) (port_data : KmsCompositeMixerPortData)
    (info : GstEventType) : GstPadProbeReturn × KmsCompositeMixer :=
  if info ≠ GstEventType.EOS then
    (GstPadProbeReturn.PASS, self)
  else
    (GstPadProbeReturn.OK,
      { self with
        eos_in_flight := self.eos_in_flight.erase port_data,
        loop := self.loop ++ [port_data],
        log := self.log ++
          [ Call.gst_pad_remove_probe (Obj.video_mixer_pad port_data.id) port_data.probe_id,
            Call.gst_pad_send_event_eos (Obj.video_mixer_pad port_data.id),
            Call.kms_loop_idle_add_full Callback.remove_elements_from_pipeline port_data.id ] })

/-- The task remove_elements_from_pipeline followed by its destroy-notify
destroy_port_data, which frees the record; the record is therefore not written
back anywhere. -/
def remove_elements_from_pipeline (self : KmsCompositeMixer)
    (port_data : KmsCompositeMixerPortData) : KmsCompositeMixer :=
  let id := port_data.id
  let before : List Call :=
    [Call.gst_element_unlink (Obj.capsfilter id) Obj.videomixer]
    ++ (if port_data.video_mixer_pad.isSome then
          [ Call.gst_element_release_request_pad Obj.videomixer (Obj.video_mixer_pad id),
            Call.g_object_unref (Obj.video_mixer_pad id) ]
        else [])
    ++ [ Call.g_object_ref (Obj.video_agnostic id),
         Call.g_object_ref (Obj.videorate id),
         Call.g_object_ref (Obj.videoscale id),
         Call.g_object_ref (Obj.capsfilter id),
         Call.gst_bin_remove (Obj.video_agnostic id),
         Call.gst_bin_remove (Obj.videoscale id),
         Call.gst_bin_remove (Obj.capsfilter id),
         Call.gst_bin_remove (Obj.videorate id),
         Call.kms_base_hub_unlink_video_src id ]
  let s1 : KmsCompositeMixer :=
    { self with loop := self.loop.erase port_data, log := self.log ++ before }
  let s2 : KmsCompositeMixer :=
    if s1.n_elems > 0 then
      kms_composite_mixer_recalculate_sizes { s1 with n_elems := s1.n_elems - 1 }
    else s1
  { s2 with
    log := s2.log ++
      [ Call.gst_element_set_state_null (Obj.video_agnostic id),
        Call.gst_element_set_state_null (Obj.videoscale id),
        Call.gst_element_set_state_null (Obj.videorate id),
        Call.gst_element_set_state_null (Obj.capsfilter id),
        Call.g_object_unref (Obj.agnostic_sink_pad id),
        Call.g_object_unref (Obj.video_agnostic id),
        Call.g_object_unref (Obj.videoscale id),
        Call.g_object_unref (Obj.videorate id),
        Call.g_object_unref (Obj.capsfilter id),
        Call.g_slice_free id ] }

/-- The timer callback remove_agnostics_from_pipeline. -/
def remove_agnostics_from_pipeline (self : KmsCompositeMixer)
    (port_data : KmsCompositeMixerPortData) : KmsCompositeMixer :=
  { self with
    timeouts := self.timeouts.erase port_data,
    log := self.log ++
      [ Call.gst_element_set_state_null (Obj.video_agnostic port_data.id),
        Call.g_object_unref (Obj.agnostic_sink_pad port_data.id),
        Call.g_object_unref (Obj.video_agnostic port_data.id),
        Call.g_slice_free port_data.id ] }

/-- The state set up by kms_composite_mixer_init, for an output of the given
size (the code sets 800 x 600). -/
def init_with (output_width output_height : Int) : KmsCompositeMixer :=
  { videomixer := false, audiomixer := false, mixer_video_agnostic := false,
    ports := [], n_elems := 0, output_width := output_width, output_height := output_height,
    eos_in_flight := [], loop := [], timeouts := [], late_spliced := [], log := [] }

/-- The function kms_composite_mixer_init. -/
def kms_composite_mixer_init : KmsCompositeMixer := init_with 800 600

/-- One step of the compositor: a port is added, a registered port that is not
yet active sees its first stream-start, a port is removed, the EOS injected by
a removal reaches the probe on the mixer pad, a queued detach task runs, a
grace timer fires, or a stream-start reaches a record that was removed before
its activation and whose grace timer is still pending (the first-data probe is
still installed on its adapter).  The relation does not record that a probe
which returned REMOVE is gone, so for a removed record it admits a further
late stream-start: it has at least the runs of the code, and what is proved of
every reachable state holds of those. -/
inductive Step : KmsCompositeMixer → KmsCompositeMixer → Prop where
  | handle_port (s : KmsCompositeMixer) (port_id : Int) :
      Step s (kms_composite_mixer_handle_port s port_id).2
  | link_to_videomixer (s s' : KmsCompositeMixer) (data : KmsCompositeMixerPortData)
      (sink_pad_template : Bool) (request_pad : Option Nat) (r : GstPadProbeReturn) :
      g_hash_table_lookup s.ports data.id = some data → data.input = false →
      link_to_videomixer s data GstEventType.STREAM_START sink_pad_template request_pad
        = some (r, s') →
      Step s s'
  | unhandle_port (s : KmsCompositeMixer) (id : Int) :
      Step s (kms_composite_mixer_unhandle_port s id)
  | cb_EOS_received (s : KmsCompositeMixer) (port_data : KmsCompositeMixerPortData) :
      port_data ∈ s.eos_in_flight → port_data.video_mixer_pad.isSome = true →
      Step s (cb_EOS_received s port_data GstEventType.EOS).2
  | remove_elements_from_pipeline (s : KmsCompositeMixer)
      (port_data : KmsCompositeMixerPortData) :
      port_data ∈ s.loop → Step s (remove_elements_from_pipeline s port_data)
  | remove_agnostics_from_pipeline (s : KmsCompositeMixer)
      (port_data : KmsCompositeMixerPortData) :
      port_data ∈ s.timeouts → Step s (remove_agnostics_from_pipeline s port_data)
  | late_stream_start (s s' : KmsCompositeMixer) (data : KmsCompositeMixerPortData)
      (sink_pad_template : Bool) (request_pad : Option Nat) (r : GstPadProbeReturn) :
      data ∈ s.timeouts → data.input = false →
      g_hash_table_lookup s.ports data.id ≠ some data →
      link_to_videomixer s data GstEventType.STREAM_START sink_pad_template request_pad
        = some (r, s') →
      Step s s'

/-- The states reachable from a freshly initialised compositor. -/
inductive Reachable : KmsCompositeMixer → Prop where
  | init (output_width output_height : Int) : Reachable (init_with output_width output_height)
  | step (s s' : KmsCompositeMixer) : Reachable s → Step s s' → Reachable s'

/-- Scenario helper: the first stream-start reaches the registered port `id`
and the videomixer grants the request pad named by `name`. -/
def stream_start (s : KmsCompositeMixer) (id : Int) (name : Nat) : KmsCompositeMixer :=
  match g_hash_table_lookup s.ports id with
  | none => s
  | some data =>
    match link_to_videomixer s data GstEventType.STREAM_START true (some name) with
    | some r => r.2
    | none => s

/-- Scenario helper: a port is added and observes its first stream-start at once. -/
def add_active (s : KmsCompositeMixer) (id : Int) : KmsCompositeMixer :=
  stream_start (kms_composite_mixer_handle_port s id).2 id id.toNat

/-- Scenario: a fresh compositor of the given output size on which `n` ports
0 .. n-1 were added, each active before the next is added. -/
def active_ports (output_width output_height : Int) : Nat → KmsCompositeMixer
  | 0 => init_with output_width output_height
  | n + 1 => add_active (active_ports output_width output_height n) n

/-- The geometries of the registered ports, in iteration order. -/
def layout (s : KmsCompositeMixer) : List (Option Geometry) :=
  s.ports.map port_geometry

/-- The area of a slot (0 for a port without geometry). -/
def slot_area : Option Geometry → Int
  | some g => g.slot_width * g.slot_height
  | none => 0

/-- The sum of the slot areas over the registered ports. -/
def total_area (s : KmsCompositeMixer) : Int :=
  ((layout s).map slot_area).sum

/-- Scenario: ports 0 and 1 are added to a fresh compositor and the first
stream-start arrives on port 1 while port 0 is still waiting for its own. -/
def second_port_first : KmsCompositeMixer :=
  stream_start
    (kms_composite_mixer_handle_port (kms_composite_mixer_handle_port
      kms_composite_mixer_init 0).2 1).2 1 0

/-- A port with its geometry erased: what the layout recompute never changes. -/
def unplaced (p : KmsCompositeMixerPortData) : KmsCompositeMixerPortData :=
  { p with
    capsfilter := p.capsfilter.map (fun _ => { caps := none }),
    video_mixer_pad := p.video_mixer_pad.map (fun pad => { pad with xpos := 0, ypos := 0 }) }

/-- The keys of the registry, in iteration order. -/
def keys (s : KmsCompositeMixer) : List Int :=
  s.ports.map (fun p => p.id)

/-- The calls by which the layout recompute assigns geometry. -/
def sets_geometry : Call → Bool
  | Call.g_object_set_caps _ _ _ => true
  | Call.g_object_set_xpos_ypos _ _ _ => true
  | _ => false

/-- The objects a call is applied to. -/
def call_objs : Call → List Obj
  | Call.gst_element_factory_make o => [o]
  | Call.gst_bin_add o => [o]
  | Call.gst_bin_remove o => [o]
  | Call.gst_element_sync_state_with_parent o => [o]
  | Call.gst_element_link a b => [a, b]
  | Call.gst_element_unlink a b => [a, b]
  | Call.gst_element_link_pads a b pad => [a, b, pad]
  | Call.gst_element_request_pad mixer => [mixer]
  | Call.gst_element_release_request_pad mixer pad => [mixer, pad]
  | Call.gst_element_get_static_pad o pad => [o, pad]
  | Call.gst_element_send_event_eos o => [o]
  | Call.gst_pad_send_event_eos pad => [pad]
  | Call.gst_element_set_state_null o => [o]
  | Call.gst_pad_add_probe pad _ => [pad]
  | Call.gst_pad_remove_probe pad _ => [pad]
  | Call.g_object_ref o => [o]
  | Call.g_object_unref o => [o]
  | Call.g_object_set_caps o _ _ => [o]
  | Call.g_object_set_xpos_ypos pad _ _ => [pad]
  | Call.g_object_set_average_period o => [o]
  | Call.g_object_set_background o => [o]
  | Call.g_signal_connect o _ => [o]
  | _ => []

/-- The per-port objects that exist only after the splice, and the shared
video mixer. -/
def video_side : Obj → Bool
  | Obj.videomixer => true
  | Obj.videorate _ => true
  | Obj.videoscale _ => true
  | Obj.capsfilter _ => true
  | Obj.video_mixer_pad _ => true
  | _ => false

/-- Scenario: port 0 is added to a fresh compositor and its first stream-start
arrives while the videomixer class has no "sink_%u" pad template. -/
def no_template_splice : Option (GstPadProbeReturn × KmsCompositeMixer) :=
  link_to_videomixer (kms_composite_mixer_handle_port kms_composite_mixer_init 0).2
    (new_port_data 0) GstEventType.STREAM_START false none

/-- The calls link_to_videomixer makes for port `id` when no pad template is
found and the port has no mixer pad: the chain is created, added and linked,
and the adapter is linked to it. -/
def no_template_calls (id : Int) : List Call :=
  [ Call.gst_element_factory_make (Obj.videoscale id),
    Call.gst_element_factory_make (Obj.capsfilter id),
    Call.gst_element_factory_make (Obj.videorate id),
    Call.gst_bin_add (Obj.videorate id),
    Call.gst_bin_add (Obj.videoscale id),
    Call.gst_bin_add (Obj.capsfilter id),
    Call.gst_element_sync_state_with_parent (Obj.videoscale id),
    Call.gst_element_sync_state_with_parent (Obj.capsfilter id),
    Call.gst_element_sync_state_with_parent (Obj.videorate id),
    Call.g_object_set_average_period (Obj.videorate id),
    Call.gst_element_link (Obj.videorate id) (Obj.videoscale id),
    Call.gst_element_link (Obj.videoscale id) (Obj.capsfilter id),
    Call.gst_element_link (Obj.video_agnostic id) (Obj.videorate id) ]

/-- The calls of kms_composite_mixer_unhandle_port for a registered port whose
`input` is FALSE: the destroy-notify (lines 248-257 and 274-277) and the parent
class's unhandle_port. -/
def inactive_unhandle_calls (id probe_id : Int) : List Call :=
  [ Call.kms_base_hub_unlink_video_sink id,
    Call.kms_base_hub_unlink_audio_sink id,
    Call.gst_element_get_static_pad Obj.audiomixer (Obj.audiosink id),
    Call.gst_element_release_request_pad Obj.audiomixer (Obj.audiosink id),
    Call.g_object_unref (Obj.audiosink id),
    Call.gst_pad_remove_probe (Obj.agnostic_sink_pad id) probe_id,
    Call.g_object_ref (Obj.video_agnostic id),
    Call.gst_bin_remove (Obj.video_agnostic id),
    Call.g_timeout_add_seconds 2 Callback.remove_agnostics_from_pipeline id,
    Call.parent_unhandle_port id ]

/-- The calls of the timer callback remove_agnostics_from_pipeline. -/
def grace_timer_calls (id : Int) : List Call :=
  [ Call.gst_element_set_state_null (Obj.video_agnostic id),
    Call.g_object_unref (Obj.agnostic_sink_pad id),
    Call.g_object_unref (Obj.video_agnostic id),
    Call.g_slice_free id ]

/-- Scenario helper: the registered port `id` is removed, the EOS injected by
its teardown reaches the probe on its mixer pad, and the queued detach task
runs. -/
def remove_and_detach (s : KmsCompositeMixer) (id : Int) : KmsCompositeMixer :=
  match g_hash_table_lookup s.ports id with
  | none => kms_composite_mixer_unhandle_port s id
  | some p =>
    remove_elements_from_pipeline
      (cb_EOS_received (kms_composite_mixer_unhandle_port s id) p GstEventType.EOS).2 p

/-- The record of a port after a successful splice by link_to_videomixer,
before the layout recompute has placed it. -/
def spliced_port_data (id : Int) (name : Nat) : KmsCompositeMixerPortData :=
  { id := id, video_agnostic := true, capsfilter := some { caps := none }, videoscale := true,
    videorate := true, video_mixer_pad := some { name := name, xpos := 0, ypos := 0 },
    agnostic_sink_pad := true, input := true, probe_id := 1 }

/-- Every registered port is spliced and n_elems is their number. -/
def AllActive (s : KmsCompositeMixer) : Prop :=
  (∀ p ∈ s.ports, Spliced p) ∧ s.n_elems = s.ports.length

/-- The calls link_to_videomixer makes for port `id` on a stream-start when the
slot is granted, before the layout recompute. -/
def splice_calls (id : Int) : List Call :=
  [ Call.gst_element_factory_make (Obj.videoscale id),
    Call.gst_element_factory_make (Obj.capsfilter id),
    Call.gst_element_factory_make (Obj.videorate id),
    Call.gst_bin_add (Obj.videorate id),
    Call.gst_bin_add (Obj.videoscale id),
    Call.gst_bin_add (Obj.capsfilter id),
    Call.gst_element_sync_state_with_parent (Obj.videoscale id),
    Call.gst_element_sync_state_with_parent (Obj.capsfilter id),
    Call.gst_element_sync_state_with_parent (Obj.videorate id),
    Call.g_object_set_average_period (Obj.videorate id),
    Call.gst_element_link (Obj.videorate id) (Obj.videoscale id),
    Call.gst_element_link (Obj.videoscale id) (Obj.capsfilter id),
    Call.gst_element_request_pad Obj.videomixer,
    Call.gst_element_link_pads (Obj.capsfilter id) Obj.videomixer (Obj.video_mixer_pad id),
    Call.gst_element_link (Obj.video_agnostic id) (Obj.videorate id),
    Call.gst_pad_add_probe (Obj.video_mixer_pad id) Callback.cb_EOS_received ]

/-- The calls that send an end-of-stream event. -/
def sends_eos : Call → Bool
  | Call.gst_element_send_event_eos _ => true
  | Call.gst_pad_send_event_eos _ => true
  | _ => false

/-- The calls that edit the structure of the graph: creating, adding and
removing nodes, linking and unlinking (also at the hub boundary), requesting
and releasing mixer pads, disabling nodes. -/
def structural_edit : Call → Bool
  | Call.gst_element_factory_make _ => true
  | Call.gst_bin_add _ => true
  | Call.gst_bin_remove _ => true
  | Call.gst_element_link _ _ => true
  | Call.gst_element_unlink _ _ => true
  | Call.gst_element_link_pads _ _ _ => true
  | Call.gst_element_request_pad _ => true
  | Call.gst_element_release_request_pad _ _ => true
  | Call.gst_element_set_state_null _ => true
  | Call.kms_base_hub_link_video_sink _ => true
  | Call.kms_base_hub_link_audio_sink _ => true
  | Call.kms_base_hub_link_video_src _ => true
  | Call.kms_base_hub_link_audio_src _ => true
  | Call.kms_base_hub_unlink_video_sink _ => true
  | Call.kms_base_hub_unlink_audio_sink _ => true
  | Call.kms_base_hub_unlink_video_src _ => true
  | _ => false

/-- The calls that hand a function to the KmsLoop or to a GLib timer. -/
def enqueues : Call → Bool
  | Call.kms_loop_idle_add_full _ _ => true
  | Call.g_timeout_add_seconds _ _ _ => true
  | _ => false

/-- Scenario: port 0 is added to a fresh compositor and removed before any
stream-start; then its 2-second timer fires. -/
def created_port_removed : KmsCompositeMixer :=
  remove_agnostics_from_pipeline
    (kms_composite_mixer_unhandle_port
      (kms_composite_mixer_handle_port kms_composite_mixer_init 0).2 0)
    (new_port_data 0)

/-- Scenario: port 0 is added to a fresh compositor and its first stream-start
arrives; the videomixer grants the pad sink_0. -/
def first_splice : Option (GstPadProbeReturn × KmsCompositeMixer) :=
  link_to_videomixer (kms_composite_mixer_handle_port kms_composite_mixer_init 0).2
    (new_port_data 0) GstEventType.STREAM_START true (some 0)

/-! ### Audio source pad names (get_stream_id_from_padname, pad_added_cb) -/

/-- The smallest `gint`. -/
def G_MININT : Int := -2147483648

/-- The largest `gint64`. -/
def G_MAXINT64 : Int := 9223372036854775807

/-- The smallest `gint64`. -/
def G_MININT64 : Int := -9223372036854775808

/-- The conversion of a `gint64` to `gint` at `return id`: the low 32 bits,
read as a signed number. -/
def to_gint (x : Int) : Int :=
  (x + 2147483648) % 4294967296 - 2147483648

/-- The GLib predicate g_ascii_isspace: space, and the characters 9 to 13. -/
def g_ascii_isspace (c : Char) : Bool :=
  c.toNat == 32 || (9 ≤ c.toNat && c.toNat ≤ 13)

/-- The value of a decimal digit character. -/
def digit_value (c : Char) : Option Nat :=
  if 48 ≤ c.toNat ∧ c.toNat ≤ 57 then some (c.toNat - 48) else none

/-- The digit loop of g_ascii_strtoll in base 10: digits are accumulated up to
the first character that is not a decimal digit. -/
def parse_digits : Nat → List Char → Nat
  | acc, [] => acc
  | acc, c :: rest =>
    match digit_value c with
    | some d => parse_digits (acc * 10 + d) rest
    | none => acc

/-- The GLib function g_ascii_strtoll (nptr, NULL, 10): leading white space is
skipped, an optional sign is read, then decimal digits; a value outside the
range of `gint64` gives G_MAXINT64 or G_MININT64; without digits the result is 0. -/
def g_ascii_strtoll (nptr : List Char) : Int :=
  match nptr.dropWhile g_ascii_isspace with
  | [] => 0
  | c :: rest =>
    if c.toNat = 45 then max (-(parse_digits 0 rest : Int)) G_MININT64
    else if c.toNat = 43 then min (parse_digits 0 rest : Int) G_MAXINT64
    else min (parse_digits 0 (c :: rest) : Int) G_MAXINT64

/-- The GLib function g_str_has_prefix. -/
def g_str_has_prefix (str pre : List Char) : Bool :=
  pre.isPrefixOf str

/-- Modelled from the spec: the macro LENGTH_AUDIO_SRC_PAD_PREFIX of
kmsaudiomixer.h, which is not among the sources; the suffix of a pad name
starts right after AUDIO_SRC_PAD_PREFIX, so it is the length of that string. -/
def LENGTH_AUDIO_SRC_PAD_PREFIX (AUDIO_SRC_PAD_PREFIX : List Char) : Nat :=
  AUDIO_SRC_PAD_PREFIX.length

/-- The function get_stream_id_from_padname.  The macro AUDIO_SRC_PAD_PREFIX of
kmsaudiomixer.h is a parameter; a NULL name is `none`. -/
def get_stream_id_from_padname (AUDIO_SRC_PAD_PREFIX : List Char) (name : Option (List Char)) :
    Int :=
  match name with
  | none => -1
  | some str =>
    if ! g_str_has_prefix str AUDIO_SRC_PAD_PREFIX then -1
    else
      let id := g_ascii_strtoll (str.drop (LENGTH_AUDIO_SRC_PAD_PREFIX AUDIO_SRC_PAD_PREFIX))
      if id > G_MAXINT then -1 else to_gint id

/-- The direction of a pad. -/
inductive GstPadDirection where
  | GST_PAD_UNKNOWN
  | GST_PAD_SRC
  | GST_PAD_SINK
  deriving DecidableEq, Repr

/-- The signal handler pad_added_cb for a new pad of the audio mixer with the
given direction and name. -/
def pad_added_cb (self : KmsCompositeMixer) (AUDIO_SRC_PAD_PREFIX : List Char)
    (direction : GstPadDirection) (name : Option (List Char)) : KmsCompositeMixer :=
  if direction ≠ GstPadDirection.GST_PAD_SRC then self
  else
    let id := get_stream_id_from_padname AUDIO_SRC_PAD_PREFIX name
    if id < 0 then self
    else { self with log := self.log ++ [Call.kms_base_hub_link_audio_src id] }

/-- The pad name printed by "%u" after the prefix: AUDIO_SRC_PAD_PREFIX followed
by the decimal digits of `n`. -/
def audio_src_pad_name (AUDIO_SRC_PAD_PREFIX : List Char) (n : Nat) : List Char :=
  AUDIO_SRC_PAD_PREFIX ++ Nat.toDigits 10 n

/-! ### The RTP end point (`src/kmsrtpendpoint.c`): socket set-up -/

/-- A socket: its handle and the local port it is bound to (0 while it is not
bound). -/
structure GSocket where
  fd : Nat
  port : Nat
  deriving DecidableEq, Repr

/-- The conversion of an `int` to `guint16`. -/
def to_guint16 (x : Int) : Nat :=
  (x % 65536).toNat

/-- What the system answers inside one kms_rtp_end_point_open_socket: the
handle given by g_socket_new (`none` for NULL), the result of g_socket_bind, and
the port the system picks when the bind asks for port 0, which is the request
for any free port that the code itself makes for the first socket of a pair. -/
structure OpenEnv where
  g_socket_new : Option Nat
  g_socket_bind : Bool
  any_port : Nat
  deriving DecidableEq, Repr

/-- What the system answers during one kms_rtp_end_point_get_rtp_rtcp_sockets:
the opening of the first socket, whether g_socket_get_local_address gives its
address, and the opening of the second socket as a function of the port asked
for. -/
structure AttemptEnv where
  first : OpenEnv
  local_address : Bool
  second : Nat → OpenEnv

/-- The function finalize_socket on a `GSocket **`: `none` is a NULL argument,
`some none` a pointer to NULL.  The result is the cell afterwards and the
sockets closed and released. -/
def finalize_socket (socket : Option (Option GSocket)) : Option (Option GSocket) × List GSocket :=
  match socket with
  | none => (none, [])
  | some none => (some none, [])
  | some (some s) => (some none, [s])

/-- The function kms_rtp_end_point_open_socket (port): the socket bound to
`port` on the wildcard address (to the port the system picks when `port` is 0),
or NULL after closing the socket when the bind fails, and the sockets closed. -/
def kms_rtp_end_point_open_socket (e : OpenEnv) (port : Nat) : Option GSocket × List GSocket :=
  match e.g_socket_new with
  | none => (none, [])
  | some fd =>
    if e.g_socket_bind then
      (some { fd := fd, port := if port = 0 then e.any_port else port }, [])
    else
      (none, [{ fd := fd, port := 0 }])

/-- The function kms_rtp_end_point_get_socket_port: 0 when the local address
cannot be read, the port of the socket as a `guint16` otherwise. -/
def kms_rtp_end_point_get_socket_port (socket : GSocket) (local_address : Bool) : Nat :=
  if local_address then to_guint16 socket.port else 0

/-- The statement at lines 115-118: the companion of `port1`, computed in `int`
and stored in a `guint16`. -/
def companion_port (port1 : Nat) : Nat :=
  if port1 % 2 = 0 then to_guint16 ((port1 : Int) + 1) else to_guint16 ((port1 : Int) - 1)

/-- The outcome of kms_rtp_end_point_get_rtp_rtcp_sockets: the return value,
the two output cells and the sockets closed on the way. -/
structure SocketsResult where
  ret : Bool
  rtp : Option (Option GSocket)
  rtcp : Option (Option GSocket)
  closed : List GSocket
  deriving DecidableEq, Repr

/-- The function kms_rtp_end_point_get_rtp_rtcp_sockets; `rtp` and `rtcp` are
the two `GSocket **` arguments with the current content of their cells. -/
def kms_rtp_end_point_get_rtp_rtcp_sockets (env : AttemptEnv)
    (rtp rtcp : Option (Option GSocket)) : SocketsResult :=
  match rtp, rtcp with
  | some _, some _ =>
    let o1 := kms_rtp_end_point_open_socket env.first 0
    match o1.1 with
    | none => { ret := false, rtp := rtp, rtcp := rtcp, closed := o1.2 }
    | some s1 =>
      let port1 := kms_rtp_end_point_get_socket_port s1 env.local_address
      let port2 := companion_port port1
      let o2 := kms_rtp_end_point_open_socket (env.second port2) port2
      match o2.1 with
      | none =>
        { ret := false, rtp := rtp, rtcp := rtcp,
          closed := o1.2 ++ o2.2 ++ (finalize_socket (some (some s1))).2 }
      | some s2 =>
        if port1 < port2 then
          { ret := true, rtp := some (some s1), rtcp := some (some s2), closed := o1.2 ++ o2.2 }
        else
          { ret := true, rtp := some (some s2), rtcp := some (some s1), closed := o1.2 ++ o2.2 }
  | _, _ => { ret := false, rtp := rtp, rtcp := rtcp, closed := [] }

/-- Scenario: port 0 is added to a fresh compositor and removed before any
stream-start; while its grace timer is pending a stream-start reaches the
first-data probe of the removed record and the videomixer grants sink_0. -/
def late_stream_start_run : KmsCompositeMixer :=
  match link_to_videomixer
      (kms_composite_mixer_unhandle_port
        (kms_composite_mixer_handle_port kms_composite_mixer_init 0).2 0)
      (new_port_data 0) GstEventType.STREAM_START true (some 0) with
  | some r => r.2
  | none =>
    kms_composite_mixer_unhandle_port
      (kms_composite_mixer_handle_port kms_composite_mixer_init 0).2 0

/-! ## Layout engine: helper lemmas -/

theorem tdiv_two (a : Int) (h : 0 ≤ a) : a.tdiv 2 = a / 2 :=
  Int.tdiv_eq_ediv h (by decide)

theorem tmod_two (a : Int) (h : 0 ≤ a) : a.tmod 2 = a % 2 := by
  rw [Int.tmod_eq_emod h (by decide)]

/-- The row count of the code, `n / 2 + n % 2` in C arithmetic. -/
theorem rows_eq (n : Int) (h : 0 ≤ n) :
    n.tdiv N_ELEMENTS_WIDTH + n.tmod N_ELEMENTS_WIDTH = n / 2 + n % 2 := by
  unfold N_ELEMENTS_WIDTH
  rw [tdiv_two n h, tmod_two n h]

/-- The row count `n / 2 + n % 2` is the ceiling of `n / 2`. -/
theorem rows_eq_ceil (n : Int) : n / 2 + n % 2 = ⌈(n : ℚ) / 2⌉ := by
  symm
  rw [Int.ceil_eq_iff]
  have h1 : n = 2 * (n / 2) + n % 2 := by omega
  have h2 : (n : ℚ) = 2 * ((n / 2 : Int) : ℚ) + ((n % 2 : Int) : ℚ) := by
    exact_mod_cast h1
  rcases Int.emod_two_eq_zero_or_one n with h | h
  · rw [h] at h2 ⊢
    push_cast at h2 ⊢
    constructor <;> linarith
  · rw [h] at h2 ⊢
    push_cast at h2 ⊢
    constructor <;> linarith

theorem slot_width_eq (n w : Int) (hw : 0 ≤ w) :
    slot_width n w = if n = 1 then w else w / 2 := by
  unfold slot_width N_ELEMENTS_WIDTH
  rw [tdiv_two w hw]

theorem slot_height_eq (n h : Int) (hh : 0 ≤ h) :
    slot_height n h = if n < 2 then h else h / (n / 2 + n % 2) := by
  unfold slot_height
  by_cases hn : n < 2
  · simp [N_ELEMENTS_WIDTH, hn]
  · have hn0 : 0 ≤ n := by omega
    rw [rows_eq n hn0]
    simp only [N_ELEMENTS_WIDTH, hn, if_false]
    exact Int.tdiv_eq_ediv hh (by omega)

theorem slot_left_eq (k : Nat) (w : Int) : slot_left k w = ((k : Int) % 2) * w := by
  unfold slot_left N_ELEMENTS_WIDTH
  rw [tmod_two _ (by omega)]

theorem slot_top_eq (k : Nat) (h : Int) : slot_top k h = ((k : Int) / 2) * h := by
  unfold slot_top N_ELEMENTS_WIDTH
  rw [tdiv_two _ (by omega)]

/-- Every slot lies inside the frame: for 1 <= n, a counter k < n and a
non-negative output size, left + width <= W and top + height <= H, all four
values being non-negative. -/
theorem slot_inside_frame (n w h : Int) (k : Nat) (hn : 1 ≤ n) (hk : (k : Int) < n)
    (hw : 0 ≤ w) (hh : 0 ≤ h) :
    0 ≤ slot_width n w ∧ 0 ≤ slot_height n h ∧
    0 ≤ slot_left k (slot_width n w) ∧ 0 ≤ slot_top k (slot_height n h) ∧
    slot_left k (slot_width n w) + slot_width n w ≤ w ∧
    slot_top k (slot_height n h) + slot_height n h ≤ h := by
  rw [slot_left_eq, slot_top_eq, slot_width_eq _ _ hw, slot_height_eq _ _ hh]
  have hk0 : (0 : Int) ≤ k := by omega
  have hwidth : 0 ≤ (if n = 1 then w else w / 2) ∧
      0 ≤ ((k : Int) % 2) * (if n = 1 then w else w / 2) ∧
      ((k : Int) % 2) * (if n = 1 then w else w / 2) + (if n = 1 then w else w / 2) ≤ w := by
    by_cases h1 : n = 1
    · have hk1 : (k : Int) = 0 := by omega
      simp only [h1, if_true, hk1]
      omega
    · simp only [h1, if_false]
      rcases Int.emod_two_eq_zero_or_one (k : Int) with he | he <;> rw [he] <;> omega
  have hheight : 0 ≤ (if n < 2 then h else h / (n / 2 + n % 2)) ∧
      0 ≤ ((k : Int) / 2) * (if n < 2 then h else h / (n / 2 + n % 2)) ∧
      ((k : Int) / 2) * (if n < 2 then h else h / (n / 2 + n % 2))
        + (if n < 2 then h else h / (n / 2 + n % 2)) ≤ h := by
    by_cases h2 : n < 2
    · have hk1 : (k : Int) = 0 := by omega
      simp only [h2, if_true, hk1]
      omega
    · simp only [h2, if_false]
      have hr : 0 < n / 2 + n % 2 := by omega
      have hq : 0 ≤ h / (n / 2 + n % 2) := Int.ediv_nonneg hh (le_of_lt hr)
      have hqr : h / (n / 2 + n % 2) * (n / 2 + n % 2) ≤ h :=
        Int.ediv_mul_le h (ne_of_gt hr)
      have ha : (0 : Int) ≤ (k : Int) / 2 := by omega
      have har : (k : Int) / 2 + 1 ≤ n / 2 + n % 2 := by omega
      have hm : ((k : Int) / 2 + 1) * (h / (n / 2 + n % 2))
          ≤ (n / 2 + n % 2) * (h / (n / 2 + n % 2)) :=
        mul_le_mul_of_nonneg_right har hq
      refine ⟨hq, mul_nonneg ha hq, ?_⟩
      linarith
  exact ⟨hwidth.1, hheight.1, hwidth.2.1, hheight.2.1, hwidth.2.2, hheight.2.2⟩

/-- The layout arithmetic does not leave the range of `gint`: with
1 <= n <= G_MAXINT, k < n and 0 <= W, H <= G_MAXINT, the row count, the slot
size and the offsets are all in [0, G_MAXINT]. -/
theorem layout_in_gint_range (n w h : Int) (k : Nat) (hn : 1 ≤ n) (hn' : n ≤ G_MAXINT)
    (hk : (k : Int) < n) (hw : 0 ≤ w) (hw' : w ≤ G_MAXINT) (hh : 0 ≤ h) (hh' : h ≤ G_MAXINT) :
    (0 ≤ n.tdiv N_ELEMENTS_WIDTH + n.tmod N_ELEMENTS_WIDTH ∧
      n.tdiv N_ELEMENTS_WIDTH + n.tmod N_ELEMENTS_WIDTH ≤ G_MAXINT) ∧
    (0 ≤ slot_width n w ∧ slot_width n w ≤ G_MAXINT) ∧
    (0 ≤ slot_height n h ∧ slot_height n h ≤ G_MAXINT) ∧
    (0 ≤ slot_left k (slot_width n w) ∧ slot_left k (slot_width n w) ≤ G_MAXINT) ∧
    (0 ≤ slot_top k (slot_height n h) ∧ slot_top k (slot_height n h) ≤ G_MAXINT) := by
  obtain ⟨a1, a2, a3, a4, a5, a6⟩ := slot_inside_frame n w h k hn hk hw hh
  have hrows := rows_eq n (by omega)
  unfold G_MAXINT at *
  refine ⟨⟨?_, ?_⟩, ⟨a1, ?_⟩, ⟨a2, ?_⟩, ⟨a3, ?_⟩, ⟨a4, ?_⟩⟩ <;> omega

/-- On a registry whose entries all have `input` TRUE the loop visits every
entry: the one at position `k` gets the geometry of counter `c + k`. -/
theorem recalculate_loop_getElem (n w h : Int) (l : List KmsCompositeMixerPortData)
    (hall : ∀ p ∈ l, p.input = true) (c : Int) (k : Nat) :
    (recalculate_loop n w h c l).1[k]? =
      (l[k]?).map (fun p => set_geometry p (slot_width n w) (slot_height n h)
        (slot_left (c + k) (slot_width n w)) (slot_top (c + k) (slot_height n h))) := by
  induction l generalizing c k with
  | nil => simp [recalculate_loop]
  | cons p rest ih =>
    have hp : p.input = true := hall p (List.mem_cons_self _ _)
    have hrest : ∀ q ∈ rest, q.input = true := fun q hq => hall q (List.mem_cons_of_mem _ hq)
    cases k with
    | zero => simp [recalculate_loop, hp]
    | succ k =>
      simp only [recalculate_loop, hp, List.getElem?_cons_succ]
      have hc : c + 1 + (k : Int) = c + ((k + 1 : Nat) : Int) := by push_cast; ring
      have h2 := ih hrest (c + 1) k
      rw [hc] at h2
      simpa using h2

theorem port_geometry_set_geometry (p : KmsCompositeMixerPortData) (w h l t : Int)
    (hc : p.capsfilter.isSome = true) (hp : p.video_mixer_pad.isSome = true) :
    port_geometry (set_geometry p w h l t) =
      some { slot_width := w, slot_height := h, x_offset := l, y_offset := t } := by
  obtain ⟨cf, hcf⟩ := Option.isSome_iff_exists.mp hc
  obtain ⟨pad, hpad⟩ := Option.isSome_iff_exists.mp hp
  simp [port_geometry, set_geometry, hcf, hpad]

/-! ## C1 -/

/-- C1: on a registry of N >= 1 ports that are all active (spliced), with
n_elems = N and an output of W x H, W, H >= 0, the k-th iterated port keeps its
id and is given slot_width = W if N = 1 else W / 2, slot_height = H if N < 2
else H / ceil (N / 2), x_offset = (k % 2) * slot_width and
y_offset = (k / 2) * slot_height; the row count of the code, N / 2 + N % 2 in C
arithmetic, is ceil (N / 2). -/
theorem recalculate_sizes_geometry (s : KmsCompositeMixer) (k : Nat)
    (hall : ∀ p ∈ s.ports, Spliced p)
    (hN : s.n_elems = s.ports.length)
    (hW : 0 ≤ s.output_width) (hH : 0 ≤ s.output_height)
    (hk : k < s.ports.length) :
    let N : Int := s.ports.length
    let W := s.output_width
    let H := s.output_height
    let sw : Int := if N = 1 then W else W / 2
    let sh : Int := if N < 2 then H else H / ⌈(N : ℚ) / 2⌉
    N.tdiv N_ELEMENTS_WIDTH + N.tmod N_ELEMENTS_WIDTH = ⌈(N : ℚ) / 2⌉ ∧
    ∃ p q, s.ports[k]? = some p ∧
      (kms_composite_mixer_recalculate_sizes s).ports[k]? = some q ∧
      q.id = p.id ∧
      port_geometry q = some
        { slot_width := sw, slot_height := sh,
          x_offset := ((k : Int) % 2) * sw, y_offset := ((k : Int) / 2) * sh } := by
  intro N W H sw sh
  have hrows : N.tdiv N_ELEMENTS_WIDTH + N.tmod N_ELEMENTS_WIDTH = ⌈(N : ℚ) / 2⌉ := by
    rw [rows_eq N (by simp [N]), rows_eq_ceil]
  refine ⟨hrows, ?_⟩
  have hp : s.ports[k]? = some (s.ports[k]) := List.getElem?_eq_getElem hk
  have hsp : Spliced s.ports[k] := hall _ (List.getElem_mem hk)
  refine ⟨s.ports[k], set_geometry s.ports[k] (slot_width s.n_elems s.output_width)
    (slot_height s.n_elems s.output_height)
    (slot_left (0 + k) (slot_width s.n_elems s.output_width))
    (slot_top (0 + k) (slot_height s.n_elems s.output_height)), hp, ?_, ?_, ?_⟩
  · show (recalculate_loop s.n_elems s.output_width s.output_height 0 s.ports).1[k]? = _
    rw [recalculate_loop_getElem _ _ _ _ (fun p hp => (hall p hp).1), hp]
    rfl
  · rfl
  · rw [port_geometry_set_geometry _ _ _ _ _ hsp.2.1 hsp.2.2]
    have e1 : slot_width s.n_elems s.output_width = sw := by
      rw [slot_width_eq _ _ hW, hN]
    have e2 : slot_height s.n_elems s.output_height = sh := by
      rw [slot_height_eq _ _ hH, hN, rows_eq_ceil]
    rw [e1, e2, zero_add, slot_left_eq, slot_top_eq]

/-- C1 at a concrete input: three active ports on 800 x 600, third port. -/
theorem recalculate_sizes_geometry_witness :
    (∀ p ∈ (active_ports 800 600 3).ports, Spliced p) ∧
    ∃ p q, (active_ports 800 600 3).ports[2]? = some p ∧
      (kms_composite_mixer_recalculate_sizes (active_ports 800 600 3)).ports[2]? = some q ∧
      q.id = p.id ∧
      port_geometry q = some
        { slot_width := 400, slot_height := 300, x_offset := 0, y_offset := 300 } := by
  refine ⟨by decide, ?_⟩
  have h := (recalculate_sizes_geometry (active_ports 800 600 3) 2 (by decide) (by decide)
    (by decide) (by decide) (by decide)).2
  obtain ⟨p, q, h1, h2, h3, h4⟩ := h
  refine ⟨p, q, h1, h2, h3, ?_⟩
  rw [h4]
  have hc : ⌈(((active_ports 800 600 3).ports.length : Int) : ℚ) / 2⌉ = 2 := by
    rw [← rows_eq_ceil]; decide
  simp only [hc]
  decide

/-- The layout after a recompute over a registry of spliced ports: the entry
at position `k` holds the slot of counter `k`. -/
theorem recalculate_loop_layout (n w h : Int) (l : List KmsCompositeMixerPortData)
    (hall : ∀ p ∈ l, Spliced p) (c : Int) :
    (recalculate_loop n w h c l).1.map port_geometry =
      (List.range l.length).map (fun k : Nat => some
        { slot_width := slot_width n w, slot_height := slot_height n h,
          x_offset := slot_left (c + k) (slot_width n w),
          y_offset := slot_top (c + k) (slot_height n h) }) := by
  induction l generalizing c with
  | nil => simp [recalculate_loop]
  | cons p rest ih =>
    have hp : Spliced p := hall p (List.mem_cons_self _ _)
    have hrest : ∀ q ∈ rest, Spliced q := fun q hq => hall q (List.mem_cons_of_mem _ hq)
    simp only [recalculate_loop, hp.1, List.length_cons, List.range_succ_eq_map, List.map_cons,
      List.map_map]
    rw [if_neg (by simp), List.map_cons, port_geometry_set_geometry _ _ _ _ _ hp.2.1 hp.2.2,
      ih hrest (c + 1)]
    congr 1
    · simp
    · apply List.map_congr_left
      intro k _
      simp only [Function.comp]
      have hc : c + 1 + (k : Int) = c + ((k + 1 : Nat) : Int) := by push_cast; ring
      rw [hc]

theorem layout_recalculate_sizes (s : KmsCompositeMixer) (hall : ∀ p ∈ s.ports, Spliced p) :
    layout (kms_composite_mixer_recalculate_sizes s) =
      (List.range s.ports.length).map (fun k : Nat => some
        { slot_width := slot_width s.n_elems s.output_width,
          slot_height := slot_height s.n_elems s.output_height,
          x_offset := slot_left k (slot_width s.n_elems s.output_width),
          y_offset := slot_top k (slot_height s.n_elems s.output_height) }) := by
  have h := recalculate_loop_layout s.n_elems s.output_width s.output_height s.ports hall 0
  simp only [zero_add] at h
  exact h

/-! ## C2 -/

/-- C2: for every output size W x H (W, H >= 0) and a registry of N active
(spliced) ports with n_elems = N, the recompute gives: N = 1, one slot W x H at
(0,0); N = 2, two slots W/2 x H at (0,0), (W/2,0); N = 3, three slots
W/2 x H/2 at (0,0), (W/2,0), (0,H/2) and nothing else; N = 4, four slots
W/2 x H/2 at (0,0), (W/2,0), (0,H/2), (W/2,H/2). -/
theorem recalculate_sizes_small_layouts (s : KmsCompositeMixer)
    (hall : ∀ p ∈ s.ports, Spliced p) (hN : s.n_elems = s.ports.length)
    (hW : 0 ≤ s.output_width) (hH : 0 ≤ s.output_height) :
    let W := s.output_width
    let H := s.output_height
    let L := layout (kms_composite_mixer_recalculate_sizes s)
    (s.ports.length = 1 → L = [some ⟨W, H, 0, 0⟩]) ∧
    (s.ports.length = 2 → L = [some ⟨W / 2, H, 0, 0⟩, some ⟨W / 2, H, W / 2, 0⟩]) ∧
    (s.ports.length = 3 →
      L = [some ⟨W / 2, H / 2, 0, 0⟩, some ⟨W / 2, H / 2, W / 2, 0⟩,
           some ⟨W / 2, H / 2, 0, H / 2⟩]) ∧
    (s.ports.length = 4 →
      L = [some ⟨W / 2, H / 2, 0, 0⟩, some ⟨W / 2, H / 2, W / 2, 0⟩,
           some ⟨W / 2, H / 2, 0, H / 2⟩, some ⟨W / 2, H / 2, W / 2, H / 2⟩]) := by
  intro W H L
  have hL : L = _ := layout_recalculate_sizes s hall
  have e0 : ∀ x : Int, slot_left 0 x = 0 := fun x => by
    have h : (0 : Int).tmod N_ELEMENTS_WIDTH = 0 := by decide
    simp [slot_left, h]
  have e1 : ∀ x : Int, slot_left 1 x = x := fun x => by
    have h : (1 : Int).tmod N_ELEMENTS_WIDTH = 1 := by decide
    simp [slot_left, h]
  have e2 : ∀ x : Int, slot_left 2 x = 0 := fun x => by
    have h : (2 : Int).tmod N_ELEMENTS_WIDTH = 0 := by decide
    simp [slot_left, h]
  have e3 : ∀ x : Int, slot_left 3 x = x := fun x => by
    have h : (3 : Int).tmod N_ELEMENTS_WIDTH = 1 := by decide
    simp [slot_left, h]
  have t0 : ∀ x : Int, slot_top 0 x = 0 := fun x => by
    have h : (0 : Int).tdiv N_ELEMENTS_WIDTH = 0 := by decide
    simp [slot_top, h]
  have t1 : ∀ x : Int, slot_top 1 x = 0 := fun x => by
    have h : (1 : Int).tdiv N_ELEMENTS_WIDTH = 0 := by decide
    simp [slot_top, h]
  have t2 : ∀ x : Int, slot_top 2 x = x := fun x => by
    have h : (2 : Int).tdiv N_ELEMENTS_WIDTH = 1 := by decide
    simp [slot_top, h]
  have t3 : ∀ x : Int, slot_top 3 x = x := fun x => by
    have h : (3 : Int).tdiv N_ELEMENTS_WIDTH = 1 := by decide
    simp [slot_top, h]
  refine ⟨?_, ?_, ?_, ?_⟩
  · intro h
    rw [hL, hN, h, slot_width_eq _ _ hW, slot_height_eq _ _ hH]
    simp [List.range_succ, e0, t0, W, H]
  · intro h
    rw [hL, hN, h, slot_width_eq _ _ hW, slot_height_eq _ _ hH]
    simp [List.range_succ, e0, t0, e1, t1, W, H]
  · intro h
    rw [hL, hN, h, slot_width_eq _ _ hW, slot_height_eq _ _ hH]
    simp [List.range_succ, e0, t0, e1, t1, e2, t2, W, H]
  · intro h
    rw [hL, hN, h, slot_width_eq _ _ hW, slot_height_eq _ _ hH]
    simp [List.range_succ, e0, t0, e1, t1, e2, t2, e3, t3, W, H]

/-- C2 at the size set by kms_composite_mixer_init, 800 x 600, with three
active ports. -/
theorem recalculate_sizes_small_layouts_witness :
    (∀ p ∈ (active_ports 800 600 3).ports, Spliced p) ∧
    (active_ports 800 600 3).ports.length = 3 ∧
    layout (kms_composite_mixer_recalculate_sizes (active_ports 800 600 3)) =
      [some ⟨400, 300, 0, 0⟩, some ⟨400, 300, 400, 0⟩, some ⟨400, 300, 0, 300⟩] :=
  ⟨by decide, by decide,
    (recalculate_sizes_small_layouts (active_ports 800 600 3) (by decide) (by decide)
      (by decide) (by decide)).2.2.1 (by decide)⟩

/-! ## C3 -/

/-- After a recompute over N spliced ports every slot has the same size, so the
total area is N times the slot area. -/
theorem total_area_recalculate_sizes (s : KmsCompositeMixer)
    (hall : ∀ p ∈ s.ports, Spliced p) :
    total_area (kms_composite_mixer_recalculate_sizes s) =
      (s.ports.length : Int) *
        (slot_width s.n_elems s.output_width * slot_height s.n_elems s.output_height) := by
  unfold total_area
  rw [layout_recalculate_sizes s hall, List.map_map]
  have hconst : ∀ (c : Int) (l : List Nat), (l.map (fun _ => c)).sum = (l.length : Int) * c := by
    intro c l
    induction l with
    | nil => simp
    | cons a t ih => simp only [List.map_cons, List.sum_cons, List.length_cons, ih]; push_cast; ring
  have h := hconst (slot_width s.n_elems s.output_width * slot_height s.n_elems s.output_height)
    (List.range s.ports.length)
  rw [List.length_range] at h
  exact h

/-- C3 as stated fails: three active ports on 800 x 600 (2 divides 800, the
row count 2 divides 600) get three slots of 400 x 300, whose areas add up to
360000, not to 800 * 600 = 480000. -/
theorem total_area_three_ports_counterexample :
    (∀ p ∈ (active_ports 800 600 3).ports, Spliced p) ∧
    (active_ports 800 600 3).n_elems = 3 ∧
    (active_ports 800 600 3).ports.length = 3 ∧
    (2 : Int) ∣ 800 ∧ ((3 : Int) / 2 + 3 % 2) ∣ 600 ∧
    total_area (kms_composite_mixer_recalculate_sizes (active_ports 800 600 3)) = 360000 ∧
    total_area (kms_composite_mixer_recalculate_sizes (active_ports 800 600 3)) ≠ 800 * 600 := by
  decide

/-- C3, amended: for N >= 1 active (spliced) ports with n_elems = N and an
output W x H, W, H >= 0, with 2 dividing W and the row count ceil (N / 2)
dividing H, the slot areas add up to W * H when N = 1 or N is even, and to
W * H minus the area of the one unused grid cell, (W / 2) * (H / ceil (N / 2)),
when N is odd and at least 3. -/
theorem total_area_exact (s : KmsCompositeMixer)
    (hall : ∀ p ∈ s.ports, Spliced p) (hN : s.n_elems = s.ports.length)
    (hN1 : 1 ≤ s.ports.length)
    (hW : 0 ≤ s.output_width) (hH : 0 ≤ s.output_height)
    (hdW : (2 : Int) ∣ s.output_width)
    (hdH : ⌈((s.ports.length : Int) : ℚ) / 2⌉ ∣ s.output_height) :
    let N : Int := s.ports.length
    let W := s.output_width
    let H := s.output_height
    total_area (kms_composite_mixer_recalculate_sizes s) =
      if N = 1 ∨ N % 2 = 0 then W * H else W * H - (W / 2) * (H / ⌈(N : ℚ) / 2⌉) := by
  intro N W H
  rw [total_area_recalculate_sizes s hall, slot_width_eq _ _ hW, slot_height_eq _ _ hH, hN]
  rw [← rows_eq_ceil] at hdH ⊢
  show N * ((if N = 1 then W else W / 2) * (if N < 2 then H else H / (N / 2 + N % 2))) = _
  have hNpos : (1 : Int) ≤ N := by simp only [N]; exact_mod_cast hN1
  obtain ⟨w, hw⟩ := hdW
  obtain ⟨h, hh⟩ := hdH
  have hW2 : W / 2 = w := by
    show s.output_width / 2 = w
    rw [hw]; simp
  by_cases h1 : N = 1
  · simp [h1]
  · have h2 : ¬ N < 2 := by omega
    have hr : N / 2 + N % 2 ≠ 0 := by omega
    have hHr : H / (N / 2 + N % 2) = h := by
      show s.output_height / (N / 2 + N % 2) = h
      rw [hh]; exact Int.mul_ediv_cancel_left h hr
    have hWw : W = 2 * w := hw
    have hHh : H = (N / 2 + N % 2) * h := hh
    simp only [h1, h2, if_false, false_or, hW2, hHr]
    rcases Int.emod_two_eq_zero_or_one N with he | ho
    · have hN2 : N = 2 * (N / 2) := by omega
      simp only [he, if_true]
      rw [hWw, hHh, he]
      rw [hN2] at *
      generalize N / 2 = m at *
      have : 2 * m / 2 = m := by simp
      rw [this]; ring
    · have hN2 : N = 2 * (N / 2) + 1 := by omega
      have hne : ¬ N % 2 = 0 := by omega
      simp only [hne, if_false]
      rw [hWw, hHh, ho]
      have : N * (w * h) = (2 * (N / 2) + 1) * (w * h) := by rw [← hN2]
      rw [this]; ring

/-- C3, amended, at concrete inputs: three active ports on 800 x 600. -/
theorem total_area_exact_witness :
    (∀ p ∈ (active_ports 800 600 3).ports, Spliced p) ∧
    total_area (kms_composite_mixer_recalculate_sizes (active_ports 800 600 3)) =
      800 * 600 - 400 * 300 := by
  refine ⟨by decide, ?_⟩
  have hc : ⌈(((active_ports 800 600 3).ports.length : Int) : ℚ) / 2⌉ = 2 := by
    rw [← rows_eq_ceil]; decide
  have h := total_area_exact (active_ports 800 600 3) (by decide) (by decide) (by decide)
    (by decide) (by decide) (by decide) (by rw [hc]; decide)
  simp only [hc] at h
  rw [h]
  decide

/-! ## Registry: helper lemmas -/

theorem lookup_cons (p : KmsCompositeMixerPortData) (rest : List KmsCompositeMixerPortData)
    (id : Int) :
    g_hash_table_lookup (p :: rest) id =
      if p.id = id then some p else g_hash_table_lookup rest id := by
  unfold g_hash_table_lookup
  rw [List.find?_cons]
  by_cases h : p.id = id
  · simp [h]
  · have hb : (p.id == id) = false := by simpa using h
    simp [hb, h]

theorem lookup_id (ports : List KmsCompositeMixerPortData) (id : Int)
    (p : KmsCompositeMixerPortData) (h : g_hash_table_lookup ports id = some p) : p.id = id := by
  induction ports with
  | nil => simp [g_hash_table_lookup] at h
  | cons q rest ih =>
    rw [lookup_cons] at h
    by_cases hq : q.id = id
    · rw [if_pos hq] at h
      cases h; exact hq
    · rw [if_neg hq] at h
      exact ih h

theorem lookup_mem (ports : List KmsCompositeMixerPortData) (id : Int)
    (p : KmsCompositeMixerPortData) (h : g_hash_table_lookup ports id = some p) : p ∈ ports := by
  unfold g_hash_table_lookup at h
  exact List.mem_of_find?_eq_some h

theorem lookup_none_iff (ports : List KmsCompositeMixerPortData) (id : Int) :
    g_hash_table_lookup ports id = none ↔ id ∉ ports.map (fun p => p.id) := by
  induction ports with
  | nil => simp [g_hash_table_lookup]
  | cons q rest ih =>
    rw [lookup_cons]
    by_cases hq : q.id = id
    · simp [hq]
    · rw [if_neg hq, ih]
      simp only [List.map_cons, List.mem_cons, not_or]
      constructor
      · intro h; exact ⟨fun e => hq e.symm, h⟩
      · intro h; exact h.2

theorem set_geometry_input (p : KmsCompositeMixerPortData) (w h l t : Int) :
    (set_geometry p w h l t).input = p.input := rfl

theorem set_geometry_id (p : KmsCompositeMixerPortData) (w h l t : Int) :
    (set_geometry p w h l t).id = p.id := rfl

/-- The recompute changes neither the ids nor the `input` flags, entry by entry. -/
theorem recalculate_loop_map_id_input (n w h : Int) (l : List KmsCompositeMixerPortData)
    (c : Int) :
    (recalculate_loop n w h c l).1.map (fun p => (p.id, p.input)) =
      l.map (fun p => (p.id, p.input)) := by
  induction l generalizing c with
  | nil => simp [recalculate_loop]
  | cons p rest ih =>
    by_cases hp : p.input = false
    · simp [recalculate_loop, hp]
    · have hp' : p.input = true := by simpa using hp
      simp only [recalculate_loop, hp']
      rw [if_neg (by simp), List.map_cons, List.map_cons, ih (c + 1), set_geometry_input,
        set_geometry_id]

/-- The shape of a completed stream-start run of link_to_videomixer: the probe
returns REMOVE and the state is the recompute of a state in which a record
with the id of `data` and `input` TRUE was written through the pointer (into
the registry, or into `late_spliced`), n_elems was incremented and calls were
logged. -/
theorem link_to_videomixer_shape (s s' : KmsCompositeMixer) (data : KmsCompositeMixerPortData)
    (tmpl : Bool) (req : Option Nat) (r : GstPadProbeReturn)
    (hs : link_to_videomixer s data GstEventType.STREAM_START tmpl req = some (r, s')) :
    ∃ (d3 : KmsCompositeMixerPortData) (l : List Call),
      d3.id = data.id ∧ d3.input = true ∧ r = GstPadProbeReturn.REMOVE ∧
      s' = kms_composite_mixer_recalculate_sizes
        { s with
          ports := if decide (g_hash_table_lookup s.ports data.id = some data) = true
            then hash_table_store s.ports d3 else s.ports,
          late_spliced := if decide (g_hash_table_lookup s.ports data.id = some data) = true
            then s.late_spliced else s.late_spliced ++ [d3],
          n_elems := s.n_elems + 1,
          log := l } := by
  unfold link_to_videomixer at hs
  simp only [ne_eq, not_true_eq_false, if_false] at hs
  cases tmpl with
  | false =>
    simp only [Bool.false_eq_true, if_false, Option.some.injEq, Prod.mk.injEq] at hs
    refine ⟨_, _, ?_, ?_, hs.1.symm, hs.2.symm⟩ <;> rfl
  | true =>
    cases req with
    | none => simp at hs
    | some name =>
      simp only [if_true, Option.some.injEq, Prod.mk.injEq] at hs
      refine ⟨_, _, ?_, ?_, hs.1.symm, hs.2.symm⟩ <;> rfl

theorem port_data_destroy_ports (s : KmsCompositeMixer) (p : KmsCompositeMixerPortData) :
    (kms_composite_mixer_port_data_destroy s p).ports = s.ports := by
  unfold kms_composite_mixer_port_data_destroy
  by_cases h : p.input = true <;> simp [h]

theorem port_data_destroy_n_elems (s : KmsCompositeMixer) (p : KmsCompositeMixerPortData) :
    (kms_composite_mixer_port_data_destroy s p).n_elems = s.n_elems := by
  unfold kms_composite_mixer_port_data_destroy
  by_cases h : p.input = true <;> simp [h]

theorem lookup_store_self (ports : List KmsCompositeMixerPortData)
    (data old : KmsCompositeMixerPortData)
    (h : g_hash_table_lookup ports data.id = some old) :
    g_hash_table_lookup (hash_table_store ports data) data.id = some data := by
  induction ports with
  | nil => simp [g_hash_table_lookup] at h
  | cons q rest ih =>
    rw [lookup_cons] at h
    by_cases hq : q.id = data.id
    · simp only [hash_table_store, hq, if_true]
      rw [lookup_cons, if_pos rfl]
    · rw [if_neg hq] at h
      simp only [hash_table_store, hq, if_false]
      rw [lookup_cons, if_neg hq]
      exact ih h

theorem lookup_store_other (ports : List KmsCompositeMixerPortData)
    (data : KmsCompositeMixerPortData) (id : Int) (hne : id ≠ data.id) :
    g_hash_table_lookup (hash_table_store ports data) id = g_hash_table_lookup ports id := by
  induction ports with
  | nil => rfl
  | cons q rest ih =>
    by_cases hq : q.id = data.id
    · simp only [hash_table_store, hq, if_true]
      rw [lookup_cons, lookup_cons, if_neg (fun e => hne e.symm), if_neg (by rw [hq]; exact fun e => hne e.symm)]
    · simp only [hash_table_store, hq, if_false]
      rw [lookup_cons, lookup_cons, ih]

theorem lookup_append_one (ports : List KmsCompositeMixerPortData)
    (data : KmsCompositeMixerPortData) (id : Int) :
    g_hash_table_lookup (ports ++ [data]) id =
      match g_hash_table_lookup ports id with
      | some p => some p
      | none => if data.id = id then some data else none := by
  induction ports with
  | nil =>
    show g_hash_table_lookup [data] id = _
    rw [lookup_cons]
    rfl
  | cons q rest ih =>
    show g_hash_table_lookup (q :: (rest ++ [data])) id = _
    rw [lookup_cons, lookup_cons]
    by_cases hq : q.id = id
    · simp [hq]
    · simp only [hq, if_false]
      exact ih

/-- The registry entries of the state after kms_composite_mixer_handle_port
with a non-negative id: the new record under `port_id`, the old entries elsewhere. -/
theorem lookup_handle_port (s : KmsCompositeMixer) (port_id : Int) (h : 0 ≤ port_id) (id : Int) :
    g_hash_table_lookup (kms_composite_mixer_handle_port s port_id).2.ports id =
      if id = port_id then some (new_port_data port_id) else g_hash_table_lookup s.ports id := by
  unfold kms_composite_mixer_handle_port
  have hneg : ¬ port_id < 0 := by omega
  simp only [hneg, if_false]
  have hb : (bootstrap_audiomixer (bootstrap_videomixer s)).ports = s.ports := by
    unfold bootstrap_audiomixer bootstrap_videomixer
    by_cases hv : s.videomixer = true <;> by_cases ha : s.audiomixer = true <;>
      simp [hv, ha]
  generalize bootstrap_audiomixer (bootstrap_videomixer s) = t at hb
  unfold g_hash_table_insert kms_composite_mixer_port_data_create
  have hid : (new_port_data port_id).id = port_id := rfl
  simp only [hid]
  cases hl : g_hash_table_lookup t.ports port_id with
  | none =>
    simp only []
    rw [lookup_append_one, hb]
    rw [hb] at hl
    by_cases hi : id = port_id
    · rw [hi, hl]; simp [hid]
    · cases hl2 : g_hash_table_lookup s.ports id with
      | none =>
        have hi' : ¬ port_id = id := fun e => hi e.symm
        simp [hid, hi, hi']
      | some p => simp [hi]
  | some old =>
    simp only []
    rw [port_data_destroy_ports]
    show g_hash_table_lookup (hash_table_store t.ports (new_port_data port_id)) id = _
    by_cases hi : id = port_id
    · rw [hi, if_pos rfl]
      exact lookup_store_self t.ports (new_port_data port_id) old hl
    · rw [if_neg hi, lookup_store_other _ _ _ hi, hb]

theorem reachable_handle_port (s : KmsCompositeMixer) (port_id : Int) (h : Reachable s) :
    Reachable (kms_composite_mixer_handle_port s port_id).2 :=
  Reachable.step _ _ h (Step.handle_port s port_id)

theorem reachable_unhandle_port (s : KmsCompositeMixer) (id : Int) (h : Reachable s) :
    Reachable (kms_composite_mixer_unhandle_port s id) :=
  Reachable.step _ _ h (Step.unhandle_port s id)

theorem reachable_stream_start (s : KmsCompositeMixer) (id : Int) (name : Nat)
    (data : KmsCompositeMixerPortData) (h : Reachable s)
    (hl : g_hash_table_lookup s.ports id = some data) (hin : data.input = false) :
    Reachable (stream_start s id name) := by
  have hid : data.id = id := lookup_id _ _ _ hl
  have hs : stream_start s id name =
      ((link_to_videomixer s data GstEventType.STREAM_START true (some name)).get rfl).2 := by
    unfold stream_start
    rw [hl]
    rfl
  rw [hs]
  refine Reachable.step _ _ h (Step.link_to_videomixer s _ data true (some name)
    GstPadProbeReturn.REMOVE (by rw [hid]; exact hl) hin rfl)

theorem reachable_add_active (s : KmsCompositeMixer) (id : Int) (h : Reachable s)
    (hid : 0 ≤ id) : Reachable (add_active s id) := by
  unfold add_active
  apply reachable_stream_start _ _ _ (new_port_data id) (reachable_handle_port s id h)
  · rw [lookup_handle_port s id hid, if_pos rfl]
  · rfl

theorem reachable_active_ports (w h : Int) (n : Nat) : Reachable (active_ports w h n) := by
  induction n with
  | zero => exact Reachable.init w h
  | succ n ih => exact reachable_add_active _ _ ih (by omega)

/-- A stream-start that reaches a record removed before its activation: port 0
is added and removed, and while its grace timer is pending the first-data
probe, which the teardown did not remove, sees the stream-start.  The state is
reachable; the registry is empty and nothing is draining, yet n_elems is 1. -/
theorem late_stream_start_is_counted :
    Reachable late_stream_start_run ∧
    late_stream_start_run.ports = [] ∧
    late_stream_start_run.eos_in_flight = [] ∧
    late_stream_start_run.loop = [] ∧
    late_stream_start_run.late_spliced.map (fun p => (p.id, p.input)) = [(0, true)] ∧
    late_stream_start_run.n_elems = 1 := by
  refine ⟨?_, by decide, by decide, by decide, by decide, by decide⟩
  refine Reachable.step _ _
    (reachable_unhandle_port _ 0 (reachable_handle_port _ 0 (Reachable.init 800 600)))
    (Step.late_stream_start _ _ (new_port_data 0) true (some 0) GstPadProbeReturn.REMOVE
      (by decide) (by decide) (by decide) (by decide))

/-- C5, the code at a failing input: ports 0 and 1 are registered, only port 1
has seen its stream-start (n_elems = 1).  The recompute run by
link_to_videomixer meets port 0 first and returns: port 1, whose `input` is
TRUE, has no caps and no position, and a further call of
kms_composite_mixer_recalculate_sizes changes nothing and sets nothing. -/
theorem recalculate_sizes_stops_at_inactive_port :
    Reachable second_port_first ∧
    second_port_first.ports.map (fun p => (p.id, p.input)) = [(0, false), (1, true)] ∧
    second_port_first.n_elems = 1 ∧
    layout second_port_first = [none, none] ∧
    (∀ c ∈ second_port_first.log, sets_geometry c = false) ∧
    kms_composite_mixer_recalculate_sizes second_port_first = second_port_first := by
  refine ⟨?_, by decide, by decide, by decide, by decide, by decide⟩
  unfold second_port_first
  apply reachable_stream_start _ _ _ (new_port_data 1)
  · exact reachable_handle_port _ _ (reachable_handle_port _ _ (Reachable.init 800 600))
  · decide
  · decide

/-! ## Registry keys are unique -/

theorem keys_erase (ports : List KmsCompositeMixerPortData) (id : Int) :
    (hash_table_erase ports id).map (fun p => p.id) = (ports.map (fun p => p.id)).erase id := by
  induction ports with
  | nil => rfl
  | cons q rest ih =>
    by_cases hq : q.id = id
    · simp [hash_table_erase, hq]
    · have hb : (q.id == id) = false := by simpa using hq
      simp only [hash_table_erase, hq, if_false, List.map_cons, List.erase_cons, hb]
      rw [ih]
      rfl

theorem keys_store (ports : List KmsCompositeMixerPortData) (data : KmsCompositeMixerPortData) :
    (hash_table_store ports data).map (fun p => p.id) = ports.map (fun p => p.id) := by
  induction ports with
  | nil => rfl
  | cons q rest ih =>
    by_cases hq : q.id = data.id
    · simp [hash_table_store, hq]
    · simp only [hash_table_store, hq, if_false, List.map_cons, ih]

theorem keys_recalculate (s : KmsCompositeMixer) :
    keys (kms_composite_mixer_recalculate_sizes s) = keys s := by
  have h := recalculate_loop_map_id_input s.n_elems s.output_width s.output_height s.ports 0
  have h2 := congrArg (List.map Prod.fst) h
  simp only [List.map_map] at h2
  exact h2

theorem keys_port_data_destroy (s : KmsCompositeMixer) (p : KmsCompositeMixerPortData) :
    keys (kms_composite_mixer_port_data_destroy s p) = keys s := by
  unfold keys
  rw [port_data_destroy_ports]

theorem keys_unhandle_port (s : KmsCompositeMixer) (id : Int) :
    keys (kms_composite_mixer_unhandle_port s id) = (keys s).erase id := by
  unfold kms_composite_mixer_unhandle_port
  cases hl : g_hash_table_lookup s.ports id with
  | none =>
    have : id ∉ keys s := (lookup_none_iff _ _).mp hl
    rw [List.erase_of_not_mem this]
    rfl
  | some p =>
    show keys (kms_composite_mixer_port_data_destroy _ p) = _
    rw [keys_port_data_destroy]
    exact keys_erase s.ports id

theorem keys_handle_port (s : KmsCompositeMixer) (port_id : Int) :
    keys (kms_composite_mixer_handle_port s port_id).2 =
      if port_id < 0 ∨ port_id ∈ keys s then keys s else keys s ++ [port_id] := by
  unfold kms_composite_mixer_handle_port
  by_cases hneg : port_id < 0
  · simp [hneg]
  · simp only [hneg, if_false, false_or]
    have hb : (bootstrap_audiomixer (bootstrap_videomixer s)).ports = s.ports := by
      unfold bootstrap_audiomixer bootstrap_videomixer
      by_cases hv : s.videomixer = true <;> by_cases ha : s.audiomixer = true <;>
        simp [hv, ha]
    generalize bootstrap_audiomixer (bootstrap_videomixer s) = t at hb
    unfold g_hash_table_insert kms_composite_mixer_port_data_create
    have hid : (new_port_data port_id).id = port_id := rfl
    simp only [hid]
    cases hl : g_hash_table_lookup t.ports port_id with
    | none =>
      rw [hb] at hl
      have hn : port_id ∉ keys s := (lookup_none_iff _ _).mp hl
      simp only [hn, if_false]
      simp [keys, hb, hid]
    | some old =>
      rw [hb] at hl
      have hn : port_id ∈ keys s := by
        by_contra hc
        rw [(lookup_none_iff _ _).mpr hc] at hl
        cases hl
      simp only [hn, if_true]
      rw [keys_port_data_destroy]
      show (hash_table_store t.ports (new_port_data port_id)).map (fun p => p.id) = _
      rw [keys_store, hb]
      rfl

theorem keys_link_to_videomixer (s s' : KmsCompositeMixer) (data : KmsCompositeMixerPortData)
    (info : GstEventType) (tmpl : Bool) (req : Option Nat) (r : GstPadProbeReturn)
    (hs : link_to_videomixer s data info tmpl req = some (r, s')) : keys s' = keys s := by
  by_cases hi : info = GstEventType.STREAM_START
  · rw [hi] at hs
    obtain ⟨d3, l, _, _, _, e⟩ := link_to_videomixer_shape s s' data tmpl req r hs
    rw [e, keys_recalculate]
    by_cases hd : decide (g_hash_table_lookup s.ports data.id = some data) = true
    · simp only [hd, if_true]
      exact keys_store _ _
    · simp only [hd, if_false]
      rfl
  · unfold link_to_videomixer at hs
    simp only [ne_eq, hi, not_false_eq_true, if_true, Option.some.injEq, Prod.mk.injEq] at hs
    rw [← hs.2]

theorem keys_remove_elements_from_pipeline (s : KmsCompositeMixer)
    (p : KmsCompositeMixerPortData) : keys (remove_elements_from_pipeline s p) = keys s := by
  unfold remove_elements_from_pipeline
  by_cases hn : s.n_elems > 0
  · simp only [hn, if_true]
    show keys (kms_composite_mixer_recalculate_sizes _) = _
    rw [keys_recalculate]
    rfl
  · simp only [hn, if_false]
    rfl

theorem keys_nodup_step (s s' : KmsCompositeMixer) (hstep : Step s s')
    (h : (keys s).Nodup) : (keys s').Nodup := by
  cases hstep with
  | handle_port port_id =>
    rw [keys_handle_port]
    by_cases hc : port_id < 0 ∨ port_id ∈ keys s
    · rw [if_pos hc]; exact h
    · rw [if_neg hc]
      have hn : port_id ∉ keys s := fun hm => hc (Or.inr hm)
      refine List.Nodup.append h (List.nodup_singleton _) ?_
      intro a ha hb
      rw [List.mem_singleton.mp hb] at ha
      exact hn ha
  | link_to_videomixer _ data tmpl req r hl hin hs =>
    rw [keys_link_to_videomixer s s' data _ tmpl req r hs]; exact h
  | unhandle_port id => rw [keys_unhandle_port]; exact h.erase id
  | cb_EOS_received p hp _ => exact h
  | remove_elements_from_pipeline p hp => rw [keys_remove_elements_from_pipeline]; exact h
  | remove_agnostics_from_pipeline p _ => exact h
  | late_stream_start _ data tmpl req r _ _ _ hs =>
    rw [keys_link_to_videomixer s s' data _ tmpl req r hs]; exact h

theorem keys_nodup_reachable (s : KmsCompositeMixer) (h : Reachable s) : (keys s).Nodup := by
  induction h with
  | init w h => exact List.nodup_nil
  | step s s' _ hstep ih => exact keys_nodup_step s s' hstep ih

/-! ## C6 -/

/-- C6 as stated fails: port 0 is active; when kms_composite_mixer_unhandle_port (0)
has returned, the registry no longer holds key 0 although no detach task has
run or is even queued (the EOS is still in flight and no node was disposed). -/
theorem unhandle_port_erases_entry_counterexample :
    Reachable (active_ports 800 600 1) ∧
    (g_hash_table_lookup (active_ports 800 600 1).ports 0).map (fun p => p.input) = some true ∧
    g_hash_table_lookup (kms_composite_mixer_unhandle_port (active_ports 800 600 1) 0).ports 0
      = none ∧
    (kms_composite_mixer_unhandle_port (active_ports 800 600 1) 0).loop = [] ∧
    (kms_composite_mixer_unhandle_port (active_ports 800 600 1) 0).eos_in_flight.map
      (fun p => p.id) = [0] ∧
    Call.gst_element_set_state_null (Obj.videorate 0) ∉
      (kms_composite_mixer_unhandle_port (active_ports 800 600 1) 0).log :=
  ⟨reachable_active_ports 800 600 1, by decide, by decide, by decide, by decide, by decide⟩

/-- C6, amended: for a registry with unique keys and an active port `id`,
kms_composite_mixer_unhandle_port (id) erases the entry from the registry
before it returns (g_hash_table_remove) and its destroy-notify only starts the
drain: it unlinks the port from the hub, releases the audio mixer pad, unlinks
the adapter from the rate-normalizer and sends EOS; n_elems and the task queue
are unchanged.  The port's nodes are disposed later by the queued detach task
remove_elements_from_pipeline, which never changes the keys of the registry. -/
theorem unhandle_port_erases_entry (s : KmsCompositeMixer) (id : Int)
    (p : KmsCompositeMixerPortData) (hk : (keys s).Nodup)
    (hl : g_hash_table_lookup s.ports id = some p) (hin : p.input = true) :
    g_hash_table_lookup (kms_composite_mixer_unhandle_port s id).ports id = none ∧
    keys (kms_composite_mixer_unhandle_port s id) = (keys s).erase id ∧
    (kms_composite_mixer_unhandle_port s id).eos_in_flight = s.eos_in_flight ++ [p] ∧
    (kms_composite_mixer_unhandle_port s id).loop = s.loop ∧
    (kms_composite_mixer_unhandle_port s id).n_elems = s.n_elems ∧
    (kms_composite_mixer_unhandle_port s id).log = s.log ++
      [ Call.kms_base_hub_unlink_video_sink id,
        Call.kms_base_hub_unlink_audio_sink id,
        Call.gst_element_get_static_pad Obj.audiomixer (Obj.audiosink id),
        Call.gst_element_release_request_pad Obj.audiomixer (Obj.audiosink id),
        Call.g_object_unref (Obj.audiosink id),
        Call.gst_element_unlink (Obj.video_agnostic id) (Obj.videorate id),
        Call.gst_element_send_event_eos (Obj.videorate id),
        Call.parent_unhandle_port id ] ∧
    (∀ (t : KmsCompositeMixer) (q : KmsCompositeMixerPortData),
      keys (remove_elements_from_pipeline t q) = keys t ∧
      Call.gst_element_set_state_null (Obj.videorate q.id) ∈
        (remove_elements_from_pipeline t q).log) := by
  have hid : p.id = id := lookup_id _ _ _ hl
  have hkeys := keys_unhandle_port s id
  refine ⟨?_, hkeys, ?_, ?_, ?_, ?_, ?_⟩
  · rw [lookup_none_iff]
    show id ∉ keys (kms_composite_mixer_unhandle_port s id)
    rw [hkeys]
    intro hm
    exact ((List.Nodup.mem_erase_iff hk).mp hm).1 rfl
  · simp [kms_composite_mixer_unhandle_port, hl, kms_composite_mixer_port_data_destroy, hin]
  · simp [kms_composite_mixer_unhandle_port, hl, kms_composite_mixer_port_data_destroy, hin]
  · simp [kms_composite_mixer_unhandle_port, hl, kms_composite_mixer_port_data_destroy, hin]
  · simp [kms_composite_mixer_unhandle_port, hl, kms_composite_mixer_port_data_destroy, hin, hid]
  · intro t q
    refine ⟨keys_remove_elements_from_pipeline t q, ?_⟩
    unfold remove_elements_from_pipeline
    simp

/-- C6, amended, at a concrete state: one active port, removed. -/
theorem unhandle_port_erases_entry_witness :
    (keys (active_ports 800 600 1)).Nodup ∧
    g_hash_table_lookup (kms_composite_mixer_unhandle_port (active_ports 800 600 1) 0).ports 0
      = none ∧
    keys (kms_composite_mixer_unhandle_port (active_ports 800 600 1) 0) = [] :=
  have h := unhandle_port_erases_entry (active_ports 800 600 1) 0
    { id := 0, video_agnostic := true,
      capsfilter := some { caps := some { width := 800, height := 600 } },
      videoscale := true, videorate := true,
      video_mixer_pad := some { name := 0, xpos := 0, ypos := 0 },
      agnostic_sink_pad := true, input := true, probe_id := 1 }
    (by decide) (by decide) (by decide)
  ⟨by decide, h.1, by rw [h.2.1]; decide⟩

/-! ## C7 -/

theorem unplaced_set_geometry (p : KmsCompositeMixerPortData) (w h l t : Int) :
    unplaced (set_geometry p w h l t) = unplaced p := by
  unfold unplaced set_geometry
  cases p.capsfilter <;> cases p.video_mixer_pad <;> rfl

theorem unplaced_id (p : KmsCompositeMixerPortData) : (unplaced p).id = p.id := rfl

/-- The recompute changes nothing of an entry but its geometry. -/
theorem lookup_recalculate_loop (n w h : Int) (l : List KmsCompositeMixerPortData)
    (c id : Int) :
    (g_hash_table_lookup (recalculate_loop n w h c l).1 id).map unplaced =
      (g_hash_table_lookup l id).map unplaced := by
  induction l generalizing c with
  | nil => simp [recalculate_loop]
  | cons p rest ih =>
    by_cases hp : p.input = false
    · simp [recalculate_loop, hp]
    · have hp' : p.input = true := by simpa using hp
      simp only [recalculate_loop, hp']
      rw [if_neg (by simp)]
      show Option.map unplaced (g_hash_table_lookup (set_geometry p _ _ _ _ :: _) id) = _
      rw [lookup_cons, lookup_cons, set_geometry_id]
      by_cases hq : p.id = id
      · simp only [hq, if_true, Option.map_some', unplaced_set_geometry]
      · simp only [hq, if_false]
        exact ih (c + 1)

theorem sets_geometry_recalculate_loop (n w h : Int) (l : List KmsCompositeMixerPortData)
    (c : Int) : ∀ x ∈ (recalculate_loop n w h c l).2, sets_geometry x = true := by
  induction l generalizing c with
  | nil => simp [recalculate_loop]
  | cons p rest ih =>
    by_cases hp : p.input = false
    · simp [recalculate_loop, hp]
    · have hp' : p.input = true := by simpa using hp
      simp only [recalculate_loop, hp']
      rw [if_neg (by simp)]
      intro x hx
      rcases List.mem_append.mp hx with hx | hx
      · unfold set_geometry_calls at hx
        rcases List.mem_append.mp hx with hx | hx
        · by_cases h1 : p.capsfilter.isSome = true
          · rw [if_pos h1] at hx; rw [List.mem_singleton.mp hx]; rfl
          · rw [if_neg h1] at hx; cases hx
        · by_cases h1 : p.video_mixer_pad.isSome = true
          · rw [if_pos h1] at hx; rw [List.mem_singleton.mp hx]; rfl
          · rw [if_neg h1] at hx; cases hx
      · exact ih (c + 1) x hx

/-- C7 as stated fails: port 0 is added and sees its stream-start while no
"sink_%u" pad template is found.  link_to_videomixer returns REMOVE, the port
is left with `input` TRUE and without mixer pad, n_elems has become 1, the
recompute has given the port the full frame, and the chain was not removed
from the bin. -/
theorem link_to_videomixer_no_rollback_counterexample :
    no_template_splice.map (fun r => r.1) = some GstPadProbeReturn.REMOVE ∧
    no_template_splice.map (fun r => r.2.n_elems) = some 1 ∧
    no_template_splice.map
      (fun r => r.2.ports.map (fun p => (p.id, p.input, p.video_mixer_pad, p.capsfilter))) =
      some [(0, true, none, some { caps := some { width := 800, height := 600 } })] ∧
    no_template_splice.map
      (fun r => decide (Call.g_object_set_caps (Obj.capsfilter 0) 800 600 ∈ r.2.log)) =
      some true ∧
    no_template_splice.map
      (fun r => r.2.log.any (fun c => c == Call.gst_bin_remove (Obj.videorate 0)
        || c == Call.gst_bin_remove (Obj.videoscale 0)
        || c == Call.gst_bin_remove (Obj.capsfilter 0))) = some false :=
  ⟨by decide, by decide, by decide, by decide, by decide⟩

/-- C7, amended: when link_to_videomixer obtains no sink pad template on the
first stream-start of a registered port that has no mixer pad, it skips the
slot request and the link to the mixer and installs no EOS probe, but it has no
failure path: it returns REMOVE, the port is left with `input` TRUE, its
rate/scale/filter chain created and kept (nothing is removed from the bin),
video_mixer_pad still NULL and probe_id 0, n_elems is incremented by one and
the layout recompute is run on that state. -/
theorem link_to_videomixer_without_template (s : KmsCompositeMixer)
    (data : KmsCompositeMixerPortData) (req : Option Nat)
    (hl : g_hash_table_lookup s.ports data.id = some data)
    (hpad : data.video_mixer_pad = none) :
    ∃ s' d calls,
      link_to_videomixer s data GstEventType.STREAM_START false req
        = some (GstPadProbeReturn.REMOVE, s') ∧
      s' = kms_composite_mixer_recalculate_sizes
        { s with
          ports := hash_table_store s.ports
            { data with videoscale := true, capsfilter := some { caps := none },
                        videorate := true, input := true, probe_id := 0 },
          n_elems := s.n_elems + 1,
          log := s.log ++ no_template_calls data.id } ∧
      s'.n_elems = s.n_elems + 1 ∧
      g_hash_table_lookup s'.ports data.id = some d ∧
      d.input = true ∧ d.video_mixer_pad = none ∧ d.probe_id = 0 ∧
      d.videorate = true ∧ d.videoscale = true ∧ d.capsfilter.isSome = true ∧
      s'.log = s.log ++ no_template_calls data.id ++ calls ∧
      (∀ c ∈ calls, sets_geometry c = true) := by
  let d3 : KmsCompositeMixerPortData :=
    { data with videoscale := true, capsfilter := some { caps := none },
                videorate := true, input := true, probe_id := 0 }
  let s1 : KmsCompositeMixer :=
    { s with ports := hash_table_store s.ports d3, n_elems := s.n_elems + 1,
             log := s.log ++ no_template_calls data.id }
  have hrun : link_to_videomixer s data GstEventType.STREAM_START false req
      = some (GstPadProbeReturn.REMOVE, kms_composite_mixer_recalculate_sizes s1) := by
    unfold link_to_videomixer
    simp only [ne_eq, not_true_eq_false, if_false, Bool.false_eq_true, hpad, Option.isSome_none,
      List.append_nil]
    simp [s1, d3, no_template_calls, hpad, hl]
  have hl1 : g_hash_table_lookup s1.ports data.id = some d3 :=
    lookup_store_self s.ports d3 data hl
  have hl2 := lookup_recalculate_loop s1.n_elems s1.output_width s1.output_height s1.ports 0
    data.id
  rw [hl1] at hl2
  cases hq : g_hash_table_lookup (kms_composite_mixer_recalculate_sizes s1).ports data.id with
  | none =>
    have hq' : g_hash_table_lookup
        (recalculate_loop s1.n_elems s1.output_width s1.output_height 0 s1.ports).1 data.id
        = none := hq
    rw [hq'] at hl2
    cases hl2
  | some d =>
    have hq' : g_hash_table_lookup
        (recalculate_loop s1.n_elems s1.output_width s1.output_height 0 s1.ports).1 data.id
        = some d := hq
    rw [hq'] at hl2
    have hu : unplaced d = unplaced d3 := by simpa using hl2
    have f1 : d.input = true := congrArg (fun p => p.input) hu
    have f2 : d.probe_id = 0 := congrArg (fun p => p.probe_id) hu
    have f3 : d.videorate = true := congrArg (fun p => p.videorate) hu
    have f4 : d.videoscale = true := congrArg (fun p => p.videoscale) hu
    have f5 : d.video_mixer_pad.map (fun pad : MixerPad => { pad with xpos := 0, ypos := 0 })
        = none := by
      have := congrArg (fun p => p.video_mixer_pad) hu
      simpa [unplaced, d3, hpad] using this
    have f6 : d.capsfilter.map (fun _ => ({ caps := none } : Capsfilter))
        = some { caps := none } := by
      have := congrArg (fun p => p.capsfilter) hu
      simpa [unplaced, d3] using this
    refine ⟨kms_composite_mixer_recalculate_sizes s1, d,
      (recalculate_loop s1.n_elems s1.output_width s1.output_height 0 s1.ports).2,
      hrun, rfl, rfl, hq, f1, ?_, f2, f3, f4, ?_, rfl,
      sets_geometry_recalculate_loop _ _ _ _ _⟩
    · cases hv : d.video_mixer_pad with
      | none => rfl
      | some pad => rw [hv] at f5; cases f5
    · cases hv : d.capsfilter with
      | none => rw [hv] at f6; cases f6
      | some cf => rfl

/-- C7, amended, at a concrete input: the first port of a fresh compositor. -/
theorem link_to_videomixer_without_template_witness :
    g_hash_table_lookup (kms_composite_mixer_handle_port kms_composite_mixer_init 0).2.ports
      (new_port_data 0).id = some (new_port_data 0) ∧
    ∃ s', no_template_splice = some (GstPadProbeReturn.REMOVE, s') ∧ s'.n_elems = 1 := by
  refine ⟨by decide, ?_⟩
  obtain ⟨s', d, calls, h1, _, h3, _⟩ := link_to_videomixer_without_template
    (kms_composite_mixer_handle_port kms_composite_mixer_init 0).2 (new_port_data 0) none
    (by decide) (by decide)
  exact ⟨s', h1, by rw [h3]; decide⟩

/-! ## C8 -/

theorem handle_port_n_elems (s : KmsCompositeMixer) (port_id : Int) :
    (kms_composite_mixer_handle_port s port_id).2.n_elems = s.n_elems := by
  unfold kms_composite_mixer_handle_port
  by_cases hneg : port_id < 0
  · simp [hneg]
  · simp only [hneg, if_false]
    have hb : (bootstrap_audiomixer (bootstrap_videomixer s)).n_elems = s.n_elems := by
      unfold bootstrap_audiomixer bootstrap_videomixer
      by_cases hv : s.videomixer = true <;> by_cases ha : s.audiomixer = true <;>
        simp [hv, ha]
    generalize bootstrap_audiomixer (bootstrap_videomixer s) = t at hb
    unfold g_hash_table_insert kms_composite_mixer_port_data_create
    cases hl : g_hash_table_lookup t.ports (new_port_data port_id).id with
    | none => exact hb
    | some old =>
      simp only []
      rw [port_data_destroy_n_elems]
      exact hb

/-- C8: when the parent class's handle_port returned an id >= 0,
kms_composite_mixer_handle_port returns that id; afterwards the registry maps
the id to a record whose `input` flag is FALSE (the record built by
kms_composite_mixer_port_data_create), every other key maps to what it mapped
to before, and n_elems is unchanged. -/
theorem handle_port_registers_inactive (s : KmsCompositeMixer) (port_id : Int)
    (h : 0 ≤ port_id) :
    (kms_composite_mixer_handle_port s port_id).1 = port_id ∧
    g_hash_table_lookup (kms_composite_mixer_handle_port s port_id).2.ports port_id
      = some (new_port_data port_id) ∧
    (new_port_data port_id).input = false ∧
    (kms_composite_mixer_handle_port s port_id).2.n_elems = s.n_elems ∧
    (∀ id, id ≠ port_id →
      g_hash_table_lookup (kms_composite_mixer_handle_port s port_id).2.ports id
        = g_hash_table_lookup s.ports id) := by
  refine ⟨?_, ?_, rfl, handle_port_n_elems s port_id, ?_⟩
  · unfold kms_composite_mixer_handle_port
    have hneg : ¬ port_id < 0 := by omega
    simp [hneg]
  · rw [lookup_handle_port s port_id h, if_pos rfl]
  · intro id hne
    rw [lookup_handle_port s port_id h, if_neg hne]

/-- C8 at a concrete input: a port added next to two active ones. -/
theorem handle_port_registers_inactive_witness :
    (kms_composite_mixer_handle_port (active_ports 800 600 2) 2).1 = 2 ∧
    (g_hash_table_lookup (kms_composite_mixer_handle_port (active_ports 800 600 2) 2).2.ports
      2).map (fun p => p.input) = some false ∧
    (kms_composite_mixer_handle_port (active_ports 800 600 2) 2).2.n_elems = 2 := by
  have h := handle_port_registers_inactive (active_ports 800 600 2) 2 (by decide)
  refine ⟨h.1, ?_, ?_⟩
  · rw [h.2.1]; rfl
  · rw [h.2.2.2.1]; decide

/-! ## C9 -/

/-- C9: for a registry with unique keys, kms_composite_mixer_unhandle_port on an
id that is not a key changes nothing of the compositor state (registry,
n_elems, geometry, pending teardown work) and logs only the call of the parent
class's unhandle_port; and a second kms_composite_mixer_unhandle_port (id) right
after a first one is such a call: it leaves the state of the first call and
starts no further teardown. -/
theorem unhandle_port_idempotent (s : KmsCompositeMixer) (id : Int)
    (hk : (keys s).Nodup) :
    (id ∉ keys s →
      kms_composite_mixer_unhandle_port s id =
        { s with log := s.log ++ [Call.parent_unhandle_port id] }) ∧
    kms_composite_mixer_unhandle_port (kms_composite_mixer_unhandle_port s id) id =
      { kms_composite_mixer_unhandle_port s id with
        log := (kms_composite_mixer_unhandle_port s id).log ++ [Call.parent_unhandle_port id] } := by
  have hunknown : ∀ t : KmsCompositeMixer, id ∉ keys t →
      kms_composite_mixer_unhandle_port t id =
        { t with log := t.log ++ [Call.parent_unhandle_port id] } := by
    intro t ht
    have hl : g_hash_table_lookup t.ports id = none := (lookup_none_iff _ _).mpr ht
    unfold kms_composite_mixer_unhandle_port
    rw [hl]
  refine ⟨hunknown s, hunknown _ ?_⟩
  rw [keys_unhandle_port]
  intro hm
  exact ((List.Nodup.mem_erase_iff hk).mp hm).1 rfl

/-- C9 at a concrete input: port 0 of two active ports is removed twice. -/
theorem unhandle_port_idempotent_witness :
    (keys (active_ports 800 600 2)).Nodup ∧
    kms_composite_mixer_unhandle_port
        (kms_composite_mixer_unhandle_port (active_ports 800 600 2) 0) 0 =
      { kms_composite_mixer_unhandle_port (active_ports 800 600 2) 0 with
        log := (kms_composite_mixer_unhandle_port (active_ports 800 600 2) 0).log
          ++ [Call.parent_unhandle_port 0] } :=
  ⟨by decide, (unhandle_port_idempotent (active_ports 800 600 2) 0 (by decide)).2⟩

/-! ## C10 -/

/-- C10: a registered port whose `input` flag is FALSE is removed.
kms_composite_mixer_unhandle_port erases it, runs the destroy-notify, which
arms the 2-second timer for the unchanged record, and calls the parent class;
the timer callback remove_agnostics_from_pipeline, run on any later state for
that record, only disables and releases the adapter.  None of the calls made
concerns the video mixer, a mixer request pad or the port's rate-normalizer,
scaler or filter, none assigns geometry, and n_elems, the remaining registry
entries and the drain bookkeeping are unchanged. -/
theorem inactive_teardown_leaves_video_side (s : KmsCompositeMixer) (id : Int)
    (p : KmsCompositeMixerPortData)
    (hl : g_hash_table_lookup s.ports id = some p) (hin : p.input = false) :
    kms_composite_mixer_unhandle_port s id =
      { s with
        ports := hash_table_erase s.ports id,
        timeouts := s.timeouts ++ [p],
        log := s.log ++ inactive_unhandle_calls id p.probe_id } ∧
    (∀ t : KmsCompositeMixer,
      remove_agnostics_from_pipeline t p =
        { t with timeouts := t.timeouts.erase p, log := t.log ++ grace_timer_calls id }) ∧
    (∀ c ∈ inactive_unhandle_calls id p.probe_id ++ grace_timer_calls id,
      (∀ o ∈ call_objs c, video_side o = false) ∧ sets_geometry c = false) ∧
    (remove_agnostics_from_pipeline (kms_composite_mixer_unhandle_port s id) p).log
      = s.log ++ (inactive_unhandle_calls id p.probe_id ++ grace_timer_calls id) ∧
    (remove_agnostics_from_pipeline (kms_composite_mixer_unhandle_port s id) p).n_elems
      = s.n_elems ∧
    (∀ id', id' ≠ id →
      g_hash_table_lookup
        (remove_agnostics_from_pipeline (kms_composite_mixer_unhandle_port s id) p).ports id'
        = g_hash_table_lookup s.ports id') := by
  have hid : p.id = id := lookup_id _ _ _ hl
  have h1 : kms_composite_mixer_unhandle_port s id =
      { s with
        ports := hash_table_erase s.ports id,
        timeouts := s.timeouts ++ [p],
        log := s.log ++ inactive_unhandle_calls id p.probe_id } := by
    unfold kms_composite_mixer_unhandle_port kms_composite_mixer_port_data_destroy
      inactive_unhandle_calls
    simp only [hl, hin, Bool.false_eq_true, if_false, hid, List.append_assoc, List.cons_append,
      List.nil_append]
  have h2 : ∀ t : KmsCompositeMixer, remove_agnostics_from_pipeline t p =
      { t with timeouts := t.timeouts.erase p, log := t.log ++ grace_timer_calls id } := by
    intro t
    unfold remove_agnostics_from_pipeline grace_timer_calls
    rw [hid]
  refine ⟨h1, h2, ?_, ?_, ?_, ?_⟩
  · intro c hc
    simp only [inactive_unhandle_calls, grace_timer_calls, List.cons_append, List.nil_append,
      List.mem_cons, List.mem_singleton, List.not_mem_nil, or_false] at hc
    rcases hc with rfl | rfl | rfl | rfl | rfl | rfl | rfl | rfl | rfl | rfl | rfl | rfl | rfl | rfl
      <;> simp [call_objs, video_side, sets_geometry]
  · rw [h2, h1]
    simp only [List.append_assoc]
  · rw [h2, h1]
  · intro id' hne
    rw [h2, h1]
    show g_hash_table_lookup (hash_table_erase s.ports id) id' = _
    clear h1 h2 hl
    induction s.ports with
    | nil => rfl
    | cons q rest ih =>
      by_cases hq : q.id = id
      · simp only [hash_table_erase, hq, if_true]
        rw [lookup_cons, if_neg (by rw [hq]; exact fun e => hne e.symm)]
      · simp only [hash_table_erase, hq, if_false]
        rw [lookup_cons, lookup_cons, ih]

/-- C10 at a concrete input: port 2 is added next to two active ports and
removed before any stream-start; the two active ports keep their slots. -/
theorem inactive_teardown_leaves_video_side_witness :
    g_hash_table_lookup (kms_composite_mixer_handle_port (active_ports 800 600 2) 2).2.ports 2
      = some (new_port_data 2) ∧
    (remove_agnostics_from_pipeline
      (kms_composite_mixer_unhandle_port
        (kms_composite_mixer_handle_port (active_ports 800 600 2) 2).2 2)
      (new_port_data 2)).n_elems = 2 ∧
    layout (remove_agnostics_from_pipeline
      (kms_composite_mixer_unhandle_port
        (kms_composite_mixer_handle_port (active_ports 800 600 2) 2).2 2)
      (new_port_data 2)) = [some ⟨400, 600, 0, 0⟩, some ⟨400, 600, 400, 0⟩] := by
  have h := inactive_teardown_leaves_video_side
    (kms_composite_mixer_handle_port (active_ports 800 600 2) 2).2 2 (new_port_data 2)
    (by decide) (by decide)
  refine ⟨by decide, ?_, by decide⟩
  rw [h.2.2.2.2.1]
  decide

/-! ## C11 -/

theorem recalculate_loop_map_unplaced (n w h : Int) (l : List KmsCompositeMixerPortData)
    (c : Int) :
    (recalculate_loop n w h c l).1.map unplaced = l.map unplaced := by
  induction l generalizing c with
  | nil => simp [recalculate_loop]
  | cons p rest ih =>
    by_cases hp : p.input = false
    · simp [recalculate_loop, hp]
    · have hp' : p.input = true := by simpa using hp
      simp only [recalculate_loop, hp']
      rw [if_neg (by simp), List.map_cons, List.map_cons, ih (c + 1), unplaced_set_geometry]

theorem spliced_unplaced (p : KmsCompositeMixerPortData) : Spliced (unplaced p) ↔ Spliced p := by
  unfold Spliced unplaced
  cases p.capsfilter <;> cases p.video_mixer_pad <;> simp

theorem spliced_recalculate_sizes (s : KmsCompositeMixer) (h : ∀ p ∈ s.ports, Spliced p) :
    ∀ p ∈ (kms_composite_mixer_recalculate_sizes s).ports, Spliced p := by
  intro p hp
  have hm : unplaced p ∈ (kms_composite_mixer_recalculate_sizes s).ports.map unplaced :=
    List.mem_map_of_mem _ hp
  have e : (kms_composite_mixer_recalculate_sizes s).ports.map unplaced = s.ports.map unplaced :=
    recalculate_loop_map_unplaced _ _ _ _ _
  rw [e] at hm
  obtain ⟨q, hq, hqp⟩ := List.mem_map.mp hm
  have := (spliced_unplaced q).mpr (h q hq)
  rw [hqp] at this
  exact (spliced_unplaced p).mp this

theorem length_recalculate_sizes (s : KmsCompositeMixer) :
    (kms_composite_mixer_recalculate_sizes s).ports.length = s.ports.length := by
  have e : (kms_composite_mixer_recalculate_sizes s).ports.map unplaced = s.ports.map unplaced :=
    recalculate_loop_map_unplaced _ _ _ _ _
  have := congrArg List.length e
  simpa using this

theorem all_active_recalculate_sizes (s : KmsCompositeMixer) (h : AllActive s) :
    AllActive (kms_composite_mixer_recalculate_sizes s) := by
  refine ⟨spliced_recalculate_sizes s h.1, ?_⟩
  rw [length_recalculate_sizes]
  exact h.2

theorem store_append_fresh (l : List KmsCompositeMixerPortData)
    (a d : KmsCompositeMixerPortData) (had : a.id = d.id)
    (hfresh : g_hash_table_lookup l d.id = none) :
    hash_table_store (l ++ [a]) d = l ++ [d] := by
  induction l with
  | nil => simp [hash_table_store, had]
  | cons q rest ih =>
    rw [lookup_cons] at hfresh
    by_cases hq : q.id = d.id
    · rw [if_pos hq] at hfresh; cases hfresh
    · rw [if_neg hq] at hfresh
      show hash_table_store (q :: (rest ++ [a])) d = q :: (rest ++ [d])
      simp only [hash_table_store, hq, if_false, ih hfresh]

/-- The state after kms_composite_mixer_handle_port for a new key: the record of
port_data_create is appended; counts, sizes and pending work are unchanged. -/
theorem handle_port_fresh (s : KmsCompositeMixer) (id : Int) (hid : 0 ≤ id)
    (hfresh : g_hash_table_lookup s.ports id = none) :
    (kms_composite_mixer_handle_port s id).2.ports = s.ports ++ [new_port_data id] ∧
    (kms_composite_mixer_handle_port s id).2.n_elems = s.n_elems ∧
    (kms_composite_mixer_handle_port s id).2.output_width = s.output_width ∧
    (kms_composite_mixer_handle_port s id).2.output_height = s.output_height := by
  unfold kms_composite_mixer_handle_port
  have hneg : ¬ id < 0 := by omega
  simp only [hneg, if_false]
  have hb : (bootstrap_audiomixer (bootstrap_videomixer s)).ports = s.ports ∧
      (bootstrap_audiomixer (bootstrap_videomixer s)).n_elems = s.n_elems ∧
      (bootstrap_audiomixer (bootstrap_videomixer s)).output_width = s.output_width ∧
      (bootstrap_audiomixer (bootstrap_videomixer s)).output_height = s.output_height := by
    unfold bootstrap_audiomixer bootstrap_videomixer
    by_cases hv : s.videomixer = true <;> by_cases ha : s.audiomixer = true <;>
      simp [hv, ha]
  generalize bootstrap_audiomixer (bootstrap_videomixer s) = t at hb
  obtain ⟨b1, b2, b3, b4⟩ := hb
  unfold g_hash_table_insert kms_composite_mixer_port_data_create
  have hid' : (new_port_data id).id = id := rfl
  rw [← b1] at hfresh
  simp only [hid', hfresh]
  exact ⟨by rw [b1], b2, b3, b4⟩

/-- The first stream-start on a registered, never-activated port with a granted
slot: the record becomes the spliced one, n_elems grows by one and the layout
is recomputed. -/
theorem stream_start_eq (u : KmsCompositeMixer) (id : Int) (name : Nat)
    (hl : g_hash_table_lookup u.ports id = some (new_port_data id)) :
    stream_start u id name =
      kms_composite_mixer_recalculate_sizes
        { u with
          ports := hash_table_store u.ports (spliced_port_data id name),
          n_elems := u.n_elems + 1,
          log := u.log ++ splice_calls id } := by
  have hd : decide (g_hash_table_lookup u.ports (new_port_data id).id = some (new_port_data id))
      = true := by
    have hid : (new_port_data id).id = id := rfl
    rw [hid, hl]
    simp
  unfold stream_start
  rw [hl]
  unfold link_to_videomixer
  simp only [hd]
  simp [new_port_data, spliced_port_data, splice_calls]

/-- Adding a port under a new key and activating it at once: the state is the
layout recompute of a state whose registry is the old one followed by the
spliced record, with n_elems one higher and the same output size. -/
theorem add_active_eq (s : KmsCompositeMixer) (id : Int) (hid : 0 ≤ id)
    (hfresh : g_hash_table_lookup s.ports id = none) :
    ∃ t, add_active s id = kms_composite_mixer_recalculate_sizes t ∧
      t.ports = s.ports ++ [spliced_port_data id id.toNat] ∧
      t.n_elems = s.n_elems + 1 ∧
      t.output_width = s.output_width ∧ t.output_height = s.output_height := by
  obtain ⟨h1, h2, h3, h4⟩ := handle_port_fresh s id hid hfresh
  have hl : g_hash_table_lookup (kms_composite_mixer_handle_port s id).2.ports id
      = some (new_port_data id) := by
    rw [lookup_handle_port s id hid, if_pos rfl]
  have e : add_active s id = stream_start (kms_composite_mixer_handle_port s id).2 id id.toNat :=
    rfl
  rw [e, stream_start_eq _ id id.toNat hl]
  refine ⟨_, rfl, ?_, ?_, h3, h4⟩
  · show hash_table_store (kms_composite_mixer_handle_port s id).2.ports _ = _
    rw [h1]
    exact store_append_fresh s.ports _ _ rfl hfresh
  · show (kms_composite_mixer_handle_port s id).2.n_elems + 1 = _
    rw [h2]

theorem spliced_spliced_port_data (id : Int) (name : Nat) :
    Spliced (spliced_port_data id name) := ⟨rfl, rfl, rfl⟩

/-- The scenario state with n + 1 ports is a layout recompute over n + 1
spliced ports with keys 0 .. n, n_elems = n + 1 and the initial output size. -/
theorem active_ports_succ (w h : Int) (n : Nat) :
    AllActive (active_ports w h n) ∧
    keys (active_ports w h n) = (List.range n).map (fun k : Nat => (k : Int)) ∧
    (active_ports w h n).output_width = w ∧ (active_ports w h n).output_height = h ∧
    ∃ t, active_ports w h (n + 1) = kms_composite_mixer_recalculate_sizes t ∧
      AllActive t ∧ t.ports.length = n + 1 ∧ t.output_width = w ∧ t.output_height = h ∧
      keys t = (List.range (n + 1)).map (fun k : Nat => (k : Int)) := by
  induction n with
  | zero =>
    have hfresh : g_hash_table_lookup (active_ports w h 0).ports ((0 : Nat) : Int) = none := rfl
    obtain ⟨t, e, tp, tn, tw, th⟩ := add_active_eq (active_ports w h 0) ((0 : Nat) : Int)
      (by simp) hfresh
    refine ⟨⟨(by intro p hp; cases hp), rfl⟩, rfl, rfl, rfl, t, e, ⟨?_, ?_⟩, ?_, tw, th, ?_⟩
    · intro p hp
      rw [tp] at hp
      have : p = spliced_port_data ((0 : Nat) : Int) (((0 : Nat) : Int)).toNat := by
        simpa [active_ports, init_with] using hp
      rw [this]; exact spliced_spliced_port_data _ _
    · rw [tn, tp]; rfl
    · rw [tp]; rfl
    · show t.ports.map (fun p => p.id) = _
      rw [tp]; rfl
  | succ n ih =>
    obtain ⟨_, _, _, _, t, e, ha, hlen, hw, hh, hk⟩ := ih
    have a1 : AllActive (active_ports w h (n + 1)) := by
      rw [e]; exact all_active_recalculate_sizes t ha
    have k1 : keys (active_ports w h (n + 1)) = (List.range (n + 1)).map (fun k : Nat => (k : Int)) := by
      rw [e, keys_recalculate]; exact hk
    have w1 : (active_ports w h (n + 1)).output_width = w := by rw [e]; exact hw
    have h1 : (active_ports w h (n + 1)).output_height = h := by rw [e]; exact hh
    have hfresh : g_hash_table_lookup (active_ports w h (n + 1)).ports ((n + 1 : Nat) : Int)
        = none := by
      rw [lookup_none_iff]
      show ((n + 1 : Nat) : Int) ∉ keys (active_ports w h (n + 1))
      rw [k1]
      intro hm
      obtain ⟨k, hk1, hk2⟩ := List.mem_map.mp hm
      have := List.mem_range.mp hk1
      omega
    obtain ⟨t', e', tp, tn, tw, th⟩ := add_active_eq (active_ports w h (n + 1))
      ((n + 1 : Nat) : Int) (by omega) hfresh
    refine ⟨a1, k1, w1, h1, t', e', ⟨?_, ?_⟩, ?_, by rw [tw, w1], by rw [th, h1], ?_⟩
    · intro p hp
      rw [tp] at hp
      rcases List.mem_append.mp hp with hp | hp
      · exact a1.1 p hp
      · rw [List.mem_singleton.mp hp]; exact spliced_spliced_port_data _ _
    · rw [tn, tp, a1.2]
      simp
    · rw [tp, List.length_append, List.length_singleton]
      have hl : (active_ports w h (n + 1)).ports.length = n + 1 := by
        have := congrArg List.length k1
        simpa [keys] using this
      rw [hl]
    · show t'.ports.map (fun p => p.id) = _
      rw [tp, List.map_append]
      have : (active_ports w h (n + 1)).ports.map (fun p => p.id) = _ := k1
      rw [this, List.range_succ (n + 1), List.map_append]
      rfl

/-- The layouts computed for one, two and three spliced ports. -/
theorem layout_small (t : KmsCompositeMixer) (ha : AllActive t)
    (hW : 0 ≤ t.output_width) (hH : 0 ≤ t.output_height) :
    (t.ports.length = 1 → layout (kms_composite_mixer_recalculate_sizes t)
      = [some ⟨t.output_width, t.output_height, 0, 0⟩]) ∧
    (t.ports.length = 2 → layout (kms_composite_mixer_recalculate_sizes t)
      = [some ⟨t.output_width / 2, t.output_height, 0, 0⟩,
         some ⟨t.output_width / 2, t.output_height, t.output_width / 2, 0⟩]) ∧
    (t.ports.length = 3 → layout (kms_composite_mixer_recalculate_sizes t)
      = [some ⟨t.output_width / 2, t.output_height / 2, 0, 0⟩,
         some ⟨t.output_width / 2, t.output_height / 2, t.output_width / 2, 0⟩,
         some ⟨t.output_width / 2, t.output_height / 2, 0, t.output_height / 2⟩]) := by
  have hL := layout_recalculate_sizes t ha.1
  have hN := ha.2
  have e0 : ∀ x : Int, slot_left 0 x = 0 := fun x => by
    have h : (0 : Int).tmod N_ELEMENTS_WIDTH = 0 := by decide
    simp [slot_left, h]
  have e1 : ∀ x : Int, slot_left 1 x = x := fun x => by
    have h : (1 : Int).tmod N_ELEMENTS_WIDTH = 1 := by decide
    simp [slot_left, h]
  have e2 : ∀ x : Int, slot_left 2 x = 0 := fun x => by
    have h : (2 : Int).tmod N_ELEMENTS_WIDTH = 0 := by decide
    simp [slot_left, h]
  have t0 : ∀ x : Int, slot_top 0 x = 0 := fun x => by
    have h : (0 : Int).tdiv N_ELEMENTS_WIDTH = 0 := by decide
    simp [slot_top, h]
  have t1 : ∀ x : Int, slot_top 1 x = 0 := fun x => by
    have h : (1 : Int).tdiv N_ELEMENTS_WIDTH = 0 := by decide
    simp [slot_top, h]
  have t2 : ∀ x : Int, slot_top 2 x = x := fun x => by
    have h : (2 : Int).tdiv N_ELEMENTS_WIDTH = 1 := by decide
    simp [slot_top, h]
  refine ⟨?_, ?_, ?_⟩ <;> intro h <;>
    rw [hL, hN, h, slot_width_eq _ _ hW, slot_height_eq _ _ hH] <;>
    simp [List.range_succ, e0, t0, e1, t1, e2, t2]

theorem mem_hash_table_erase (ports : List KmsCompositeMixerPortData) (id : Int)
    (p : KmsCompositeMixerPortData) (h : p ∈ hash_table_erase ports id) : p ∈ ports := by
  induction ports with
  | nil => cases h
  | cons q rest ih =>
    by_cases hq : q.id = id
    · simp only [hash_table_erase, hq, if_true] at h
      exact List.mem_cons_of_mem _ h
    · simp only [hash_table_erase, hq, if_false] at h
      rcases List.mem_cons.mp h with h | h
      · rw [h]; exact List.mem_cons_self _ _
      · exact List.mem_cons_of_mem _ (ih h)

/-- Removing a registered active port and running its detach task: the state
has the layout of a recompute over the registry without the port, with n_elems
one lower and the same output size. -/
theorem remove_and_detach_eq (s : KmsCompositeMixer) (id : Int)
    (p : KmsCompositeMixerPortData) (hl : g_hash_table_lookup s.ports id = some p)
    (hin : p.input = true) (hn : 0 < s.n_elems) :
    ∃ t, (remove_and_detach s id).ports = (kms_composite_mixer_recalculate_sizes t).ports ∧
      (remove_and_detach s id).n_elems = s.n_elems - 1 ∧
      t.ports = hash_table_erase s.ports id ∧ t.n_elems = s.n_elems - 1 ∧
      t.output_width = s.output_width ∧ t.output_height = s.output_height := by
  unfold remove_and_detach
  rw [hl]
  simp only [kms_composite_mixer_unhandle_port, hl, kms_composite_mixer_port_data_destroy, hin,
    if_true, cb_EOS_received, ne_eq, not_true_eq_false, if_false, remove_elements_from_pipeline,
    gt_iff_lt, hn]
  exact ⟨_, rfl, rfl, rfl, rfl, rfl, rfl⟩

/-- C11: on a fresh compositor with output W x H (W, H >= 0), adding three
ports one after another, each seeing its first stream-start before the next
is added, gives one slot W x H at (0,0) with n_elems = 1, then two slots
W/2 x H at (0,0), (W/2,0) with n_elems = 2, then three slots W/2 x H/2 at
(0,0), (W/2,0), (0,H/2) with n_elems = 3; removing any one of the three and
running its detach task leaves n_elems = 2, the two other keys, and the fresh
two-slot grid W/2 x H at (0,0), (W/2,0). -/
theorem three_ports_end_to_end (W H : Int) (hW : 0 ≤ W) (hH : 0 ≤ H) :
    (layout (active_ports W H 1) = [some ⟨W, H, 0, 0⟩] ∧ (active_ports W H 1).n_elems = 1) ∧
    (layout (active_ports W H 2) = [some ⟨W / 2, H, 0, 0⟩, some ⟨W / 2, H, W / 2, 0⟩] ∧
      (active_ports W H 2).n_elems = 2) ∧
    (layout (active_ports W H 3) =
        [some ⟨W / 2, H / 2, 0, 0⟩, some ⟨W / 2, H / 2, W / 2, 0⟩,
         some ⟨W / 2, H / 2, 0, H / 2⟩] ∧
      (active_ports W H 3).n_elems = 3) ∧
    (∀ id : Int, id ∈ [0, 1, 2] →
      (remove_and_detach (active_ports W H 3) id).n_elems = 2 ∧
      keys (remove_and_detach (active_ports W H 3) id) = ([0, 1, 2] : List Int).erase id ∧
      layout (remove_and_detach (active_ports W H 3) id) =
        [some ⟨W / 2, H, 0, 0⟩, some ⟨W / 2, H, W / 2, 0⟩]) := by
  have step : ∀ n : Nat, ∃ t, active_ports W H (n + 1) = kms_composite_mixer_recalculate_sizes t ∧
      AllActive t ∧ t.ports.length = n + 1 ∧ t.output_width = W ∧ t.output_height = H := by
    intro n
    obtain ⟨_, _, _, _, t, e, ha, hl, hw, hh, _⟩ := active_ports_succ W H n
    exact ⟨t, e, ha, hl, hw, hh⟩
  refine ⟨?_, ?_, ?_, ?_⟩
  · obtain ⟨t, e, ha, hl, hw, hh⟩ := step 0
    have hs := (layout_small t ha (by rw [hw]; exact hW) (by rw [hh]; exact hH)).1 hl
    rw [hw, hh] at hs
    refine ⟨by rw [e]; exact hs, ?_⟩
    rw [e]
    show t.n_elems = 1
    rw [ha.2, hl]; rfl
  · obtain ⟨t, e, ha, hl, hw, hh⟩ := step 1
    have hs := (layout_small t ha (by rw [hw]; exact hW) (by rw [hh]; exact hH)).2.1 hl
    rw [hw, hh] at hs
    refine ⟨by rw [e]; exact hs, ?_⟩
    rw [e]
    show t.n_elems = 2
    rw [ha.2, hl]; rfl
  · obtain ⟨t, e, ha, hl, hw, hh⟩ := step 2
    have hs := (layout_small t ha (by rw [hw]; exact hW) (by rw [hh]; exact hH)).2.2 hl
    rw [hw, hh] at hs
    refine ⟨by rw [e]; exact hs, ?_⟩
    rw [e]
    show t.n_elems = 3
    rw [ha.2, hl]; rfl
  · intro id hid
    obtain ⟨ha, hk, hw, hh, _⟩ := active_ports_succ W H 3
    have hk3 : keys (active_ports W H 3) = [0, 1, 2] := by rw [hk]; rfl
    have hlen : (active_ports W H 3).ports.length = 3 := by
      have := congrArg List.length hk3
      simpa [keys] using this
    have hmem : id ∈ (active_ports W H 3).ports.map (fun p => p.id) := by
      show id ∈ keys (active_ports W H 3)
      rw [hk3]; exact hid
    cases hl : g_hash_table_lookup (active_ports W H 3).ports id with
    | none => exact absurd hmem ((lookup_none_iff _ _).mp hl)
    | some p =>
      have hp : Spliced p := ha.1 p (lookup_mem _ _ _ hl)
      have hn : 0 < (active_ports W H 3).n_elems := by rw [ha.2, hlen]; decide
      obtain ⟨t, e, en, tp, tn, tw, th⟩ :=
        remove_and_detach_eq (active_ports W H 3) id p hl hp.1 hn
      have tkeys : keys t = ([0, 1, 2] : List Int).erase id := by
        show t.ports.map (fun p => p.id) = _
        rw [tp, keys_erase]
        have : (active_ports W H 3).ports.map (fun p => p.id) = [0, 1, 2] := hk3
        rw [this]
      have tlen : t.ports.length = 2 := by
        have h1 := congrArg List.length tkeys
        have h2 : (([0, 1, 2] : List Int).erase id).length = 2 := by
          rw [List.length_erase_of_mem hid]; rfl
        rw [h2] at h1
        simpa [keys] using h1
      have hta : AllActive t := by
        refine ⟨?_, ?_⟩
        · intro q hq
          rw [tp] at hq
          exact ha.1 q (mem_hash_table_erase _ _ _ hq)
        · rw [tn, ha.2, hlen, tlen]; rfl
      have hs := (layout_small t hta (by rw [tw, hw]; exact hW) (by rw [th, hh]; exact hH)).2.1 tlen
      rw [tw, th, hw, hh] at hs
      refine ⟨?_, ?_, ?_⟩
      · rw [en, ha.2, hlen]; rfl
      · show (remove_and_detach (active_ports W H 3) id).ports.map (fun p => p.id) = _
        rw [e]
        have := keys_recalculate t
        unfold keys at this
        rw [this]
        exact tkeys
      · show (remove_and_detach (active_ports W H 3) id).ports.map port_geometry = _
        rw [e]
        exact hs

/-- C11 at the size set by kms_composite_mixer_init: after the third
activation, and after removing the middle port. -/
theorem three_ports_end_to_end_witness :
    layout (active_ports 800 600 3) =
      [some ⟨400, 300, 0, 0⟩, some ⟨400, 300, 400, 0⟩, some ⟨400, 300, 0, 300⟩] ∧
    (remove_and_detach (active_ports 800 600 3) 1).n_elems = 2 ∧
    keys (remove_and_detach (active_ports 800 600 3) 1) = [0, 2] ∧
    layout (remove_and_detach (active_ports 800 600 3) 1) =
      [some ⟨400, 600, 0, 0⟩, some ⟨400, 600, 400, 0⟩] := by
  have h := three_ports_end_to_end 800 600 (by decide) (by decide)
  have h3 := h.2.2.2 1 (by decide)
  exact ⟨h.2.2.1.1, h3.1, h3.2.1, h3.2.2⟩

/-! ## C13 -/

/-- C13: an event that is not a stream-start makes link_to_videomixer return
GST_PAD_PROBE_PASS with the whole compositor state (port entries, n_elems,
geometry, pending work, calls made) unchanged, whatever the outcome of a slot
request would have been; an event that is not an end-of-stream makes
cb_EOS_received return GST_PAD_PROBE_PASS with the state unchanged, so no
detach task is queued. -/
theorem probes_pass_other_events (s : KmsCompositeMixer) (data : KmsCompositeMixerPortData)
    (info : GstEventType) :
    (info ≠ GstEventType.STREAM_START →
      ∀ (sink_pad_template : Bool) (request_pad : Option Nat),
        link_to_videomixer s data info sink_pad_template request_pad
          = some (GstPadProbeReturn.PASS, s)) ∧
    (info ≠ GstEventType.EOS →
      cb_EOS_received s data info = (GstPadProbeReturn.PASS, s) ∧
      (cb_EOS_received s data info).2.loop = s.loop) := by
  constructor
  · intro h tmpl req
    unfold link_to_videomixer
    rw [if_pos h]
  · intro h
    have e : cb_EOS_received s data info = (GstPadProbeReturn.PASS, s) := by
      unfold cb_EOS_received
      rw [if_pos h]
    exact ⟨e, by rw [e]⟩

/-- C13 at concrete inputs: an end-of-stream on the first-data probe and a
stream-start on the drain probe of an active port. -/
theorem probes_pass_other_events_witness :
    link_to_videomixer (active_ports 800 600 1) (spliced_port_data 0 0) GstEventType.EOS
      true (some 5) = some (GstPadProbeReturn.PASS, active_ports 800 600 1) ∧
    cb_EOS_received (active_ports 800 600 1) (spliced_port_data 0 0)
      GstEventType.STREAM_START = (GstPadProbeReturn.PASS, active_ports 800 600 1) :=
  ⟨(probes_pass_other_events (active_ports 800 600 1) (spliced_port_data 0 0)
      GstEventType.EOS).1 (by decide) true (some 5),
    ((probes_pass_other_events (active_ports 800 600 1) (spliced_port_data 0 0)
      GstEventType.STREAM_START).2 (by decide)).1⟩

/-! ## C16 -/

/-- C16: after a recompute over N >= 1 spliced ports with n_elems = N and an
output W x H, W, H >= 0, every index k < N has a slot that lies inside the
frame (non-negative offsets, x_offset + slot_width <= W,
y_offset + slot_height <= H), and the slots of two distinct indices j, k < N
do not overlap: one lies entirely to the left of, or entirely above, the other. -/
theorem slots_inside_and_disjoint (s : KmsCompositeMixer)
    (hall : ∀ p ∈ s.ports, Spliced p) (hN : s.n_elems = s.ports.length)
    (hW : 0 ≤ s.output_width) (hH : 0 ≤ s.output_height)
    (j k : Nat) (hj : j < s.ports.length) (hk : k < s.ports.length) :
    ∃ gj gk : Geometry,
      (layout (kms_composite_mixer_recalculate_sizes s))[j]? = some (some gj) ∧
      (layout (kms_composite_mixer_recalculate_sizes s))[k]? = some (some gk) ∧
      (0 ≤ gk.x_offset ∧ 0 ≤ gk.y_offset ∧ 0 ≤ gk.slot_width ∧ 0 ≤ gk.slot_height ∧
        gk.x_offset + gk.slot_width ≤ s.output_width ∧
        gk.y_offset + gk.slot_height ≤ s.output_height) ∧
      (j ≠ k →
        gj.x_offset + gj.slot_width ≤ gk.x_offset ∨ gk.x_offset + gk.slot_width ≤ gj.x_offset ∨
        gj.y_offset + gj.slot_height ≤ gk.y_offset ∨
        gk.y_offset + gk.slot_height ≤ gj.y_offset) := by
  have hL := layout_recalculate_sizes s hall
  have hget : ∀ i : Nat, i < s.ports.length →
      (layout (kms_composite_mixer_recalculate_sizes s))[i]? = some (some
        { slot_width := slot_width s.n_elems s.output_width,
          slot_height := slot_height s.n_elems s.output_height,
          x_offset := slot_left i (slot_width s.n_elems s.output_width),
          y_offset := slot_top i (slot_height s.n_elems s.output_height) }) := by
    intro i hi
    rw [hL, List.getElem?_map, List.getElem?_range hi]
    rfl
  have hn1 : (1 : Int) ≤ s.n_elems := by rw [hN]; omega
  have hkn : (k : Int) < s.n_elems := by rw [hN]; omega
  have hjn : (j : Int) < s.n_elems := by rw [hN]; omega
  obtain ⟨a1, a2, a3, a4, a5, a6⟩ :=
    slot_inside_frame s.n_elems s.output_width s.output_height k hn1 hkn hW hH
  refine ⟨_, _, hget j hj, hget k hk, ⟨a3, a4, a1, a2, a5, a6⟩, ?_⟩
  intro hjk
  show slot_left j _ + _ ≤ slot_left k _ ∨ slot_left k _ + _ ≤ slot_left j _ ∨
    slot_top j _ + _ ≤ slot_top k _ ∨ slot_top k _ + _ ≤ slot_top j _
  rw [slot_left_eq, slot_left_eq, slot_top_eq, slot_top_eq]
  generalize slot_width s.n_elems s.output_width = w at a1 ⊢
  generalize slot_height s.n_elems s.output_height = h at a2 ⊢
  by_cases hcol : (j : Int) % 2 = (k : Int) % 2
  · -- same column, different rows
    have hrow : (j : Int) / 2 ≠ (k : Int) / 2 := by omega
    rcases lt_or_gt_of_ne hrow with hlt | hgt
    · right; right; left
      have h1 : (j : Int) / 2 + 1 ≤ (k : Int) / 2 := by omega
      have h2 := mul_le_mul_of_nonneg_right h1 a2
      linarith
    · right; right; right
      have h1 : (k : Int) / 2 + 1 ≤ (j : Int) / 2 := by omega
      have h2 := mul_le_mul_of_nonneg_right h1 a2
      linarith
  · rcases Int.emod_two_eq_zero_or_one (j : Int) with hj0 | hj1
    · have hk1 : (k : Int) % 2 = 1 := by omega
      left
      rw [hj0, hk1]; linarith
    · have hk0 : (k : Int) % 2 = 0 := by omega
      right; left
      rw [hj1, hk0]; linarith

/-- C16 at a concrete input: slots 1 and 2 of three active ports on 800 x 600. -/
theorem slots_inside_and_disjoint_witness :
    (∀ p ∈ (active_ports 800 600 3).ports, Spliced p) ∧
    ∃ gj gk : Geometry,
      (layout (kms_composite_mixer_recalculate_sizes (active_ports 800 600 3)))[1]?
        = some (some gj) ∧
      (layout (kms_composite_mixer_recalculate_sizes (active_ports 800 600 3)))[2]?
        = some (some gk) ∧
      gk.y_offset + gk.slot_height ≤ 600 ∧
      (gj.x_offset + gj.slot_width ≤ gk.x_offset ∨ gk.x_offset + gk.slot_width ≤ gj.x_offset ∨
        gj.y_offset + gj.slot_height ≤ gk.y_offset ∨
        gk.y_offset + gk.slot_height ≤ gj.y_offset) := by
  refine ⟨by decide, ?_⟩
  obtain ⟨gj, gk, h1, h2, h3, h4⟩ := slots_inside_and_disjoint (active_ports 800 600 3)
    (by decide) (by decide) (by decide) (by decide) 1 2 (by decide) (by decide)
  exact ⟨gj, gk, h1, h2, h3.2.2.2.2.2, h4 (by decide)⟩

/-! ## C15 -/

/-- C15 as stated fails: port 0 is added and removed before any stream-start,
and its timer fires.  The adapter was detached from the hub, taken out of the
bin, disabled and released, the record freed, but no end-of-stream event was
sent at any point. -/
theorem inactive_teardown_sends_no_eos_counterexample :
    Call.kms_base_hub_unlink_video_sink 0 ∈ created_port_removed.log ∧
    Call.g_timeout_add_seconds 2 Callback.remove_agnostics_from_pipeline 0
      ∈ created_port_removed.log ∧
    Call.gst_element_set_state_null (Obj.video_agnostic 0) ∈ created_port_removed.log ∧
    Call.g_slice_free 0 ∈ created_port_removed.log ∧
    created_port_removed.log.any sends_eos = false :=
  ⟨by decide, by decide, by decide, by decide, by decide⟩

/-- C15, amended: a registered port whose `input` flag is FALSE is removed.
In this order kms_composite_mixer_unhandle_port detaches it from the hub
(video sink, audio sink, audio mixer pad), calls gst_pad_remove_probe on the
adapter's sink pad, takes the adapter out of the bin and arms the 2-second
timer for the record; no end-of-stream event is sent.  Only the timer callback
remove_agnostics_from_pipeline disables the adapter (state NULL) and then
releases its sink-pad handle, the adapter and the record. -/
theorem inactive_teardown_order (s : KmsCompositeMixer) (id : Int)
    (p : KmsCompositeMixerPortData)
    (hl : g_hash_table_lookup s.ports id = some p) (hin : p.input = false) :
    (kms_composite_mixer_unhandle_port s id).log = s.log ++
      [ Call.kms_base_hub_unlink_video_sink id,
        Call.kms_base_hub_unlink_audio_sink id,
        Call.gst_element_get_static_pad Obj.audiomixer (Obj.audiosink id),
        Call.gst_element_release_request_pad Obj.audiomixer (Obj.audiosink id),
        Call.g_object_unref (Obj.audiosink id),
        Call.gst_pad_remove_probe (Obj.agnostic_sink_pad id) p.probe_id,
        Call.g_object_ref (Obj.video_agnostic id),
        Call.gst_bin_remove (Obj.video_agnostic id),
        Call.g_timeout_add_seconds 2 Callback.remove_agnostics_from_pipeline id,
        Call.parent_unhandle_port id ] ∧
    (kms_composite_mixer_unhandle_port s id).timeouts = s.timeouts ++ [p] ∧
    (∀ c ∈ (kms_composite_mixer_unhandle_port s id).log.drop s.log.length,
      sends_eos c = false ∧ c ≠ Call.gst_element_set_state_null (Obj.video_agnostic id)) ∧
    (∀ t : KmsCompositeMixer,
      (remove_agnostics_from_pipeline t p).log = t.log ++
        [ Call.gst_element_set_state_null (Obj.video_agnostic id),
          Call.g_object_unref (Obj.agnostic_sink_pad id),
          Call.g_object_unref (Obj.video_agnostic id),
          Call.g_slice_free id ] ∧
      (remove_agnostics_from_pipeline t p).timeouts = t.timeouts.erase p) := by
  have hid : p.id = id := lookup_id _ _ _ hl
  have h1 : (kms_composite_mixer_unhandle_port s id).log = s.log ++
      [ Call.kms_base_hub_unlink_video_sink id,
        Call.kms_base_hub_unlink_audio_sink id,
        Call.gst_element_get_static_pad Obj.audiomixer (Obj.audiosink id),
        Call.gst_element_release_request_pad Obj.audiomixer (Obj.audiosink id),
        Call.g_object_unref (Obj.audiosink id),
        Call.gst_pad_remove_probe (Obj.agnostic_sink_pad id) p.probe_id,
        Call.g_object_ref (Obj.video_agnostic id),
        Call.gst_bin_remove (Obj.video_agnostic id),
        Call.g_timeout_add_seconds 2 Callback.remove_agnostics_from_pipeline id,
        Call.parent_unhandle_port id ] := by
    unfold kms_composite_mixer_unhandle_port kms_composite_mixer_port_data_destroy
    simp only [hl, hin, Bool.false_eq_true, if_false, hid, List.append_assoc, List.cons_append,
      List.nil_append]
  refine ⟨h1, ?_, ?_, ?_⟩
  · unfold kms_composite_mixer_unhandle_port kms_composite_mixer_port_data_destroy
    simp only [hl, hin, Bool.false_eq_true, if_false]
  · rw [h1, List.drop_left]
    intro c hc
    simp only [List.mem_cons, List.mem_singleton, List.not_mem_nil, or_false] at hc
    rcases hc with rfl | rfl | rfl | rfl | rfl | rfl | rfl | rfl | rfl | rfl
      <;> simp [sends_eos]
  · intro t
    unfold remove_agnostics_from_pipeline
    rw [hid]
    exact ⟨rfl, rfl⟩

/-- C15, amended, at a concrete input: port 0 of a fresh compositor. -/
theorem inactive_teardown_order_witness :
    g_hash_table_lookup (kms_composite_mixer_handle_port kms_composite_mixer_init 0).2.ports 0
      = some (new_port_data 0) ∧
    (kms_composite_mixer_unhandle_port
      (kms_composite_mixer_handle_port kms_composite_mixer_init 0).2 0).timeouts
      = [new_port_data 0] ∧
    created_port_removed.timeouts = [] :=
  have h := inactive_teardown_order (kms_composite_mixer_handle_port kms_composite_mixer_init 0).2
    0 (new_port_data 0) (by decide) (by decide)
  ⟨by decide, h.2.1, by
    show (remove_agnostics_from_pipeline _ (new_port_data 0)).timeouts = []
    rw [(h.2.2.2 _).2, h.2.1]
    decide⟩

/-! ## C14 -/

theorem not_enqueues_of_sets_geometry (c : Call) (h : sets_geometry c = true) :
    enqueues c = false := by
  cases c <;> simp [sets_geometry] at h <;> rfl

/-- C14 as stated fails: on the first stream-start of port 0 link_to_videomixer
returns REMOVE after having itself created the chain, added it to the bin,
requested the mixer pad and linked everything; nothing was handed to the
KmsLoop or to a timer. -/
theorem link_to_videomixer_splices_in_probe_counterexample :
    first_splice.map (fun r => r.1) = some GstPadProbeReturn.REMOVE ∧
    first_splice.map (fun r => r.2.loop) = some [] ∧
    first_splice.map (fun r => r.2.log.any enqueues) = some false ∧
    first_splice.map (fun r => (r.2.log.drop
      (kms_composite_mixer_handle_port kms_composite_mixer_init 0).2.log.length).filter
        structural_edit) =
      some
        [ Call.gst_element_factory_make (Obj.videoscale 0),
          Call.gst_element_factory_make (Obj.capsfilter 0),
          Call.gst_element_factory_make (Obj.videorate 0),
          Call.gst_bin_add (Obj.videorate 0),
          Call.gst_bin_add (Obj.videoscale 0),
          Call.gst_bin_add (Obj.capsfilter 0),
          Call.gst_element_link (Obj.videorate 0) (Obj.videoscale 0),
          Call.gst_element_link (Obj.videoscale 0) (Obj.capsfilter 0),
          Call.gst_element_request_pad Obj.videomixer,
          Call.gst_element_link_pads (Obj.capsfilter 0) Obj.videomixer (Obj.video_mixer_pad 0),
          Call.gst_element_link (Obj.video_agnostic 0) (Obj.videorate 0) ] :=
  ⟨by decide, by decide, by decide, by decide⟩

/-- C14, amended: only the detach goes through the KmsLoop.  On an
end-of-stream cb_EOS_received makes no structural edit: it removes its probe,
forwards the EOS and queues remove_elements_from_pipeline, which later unlinks
the chain from the mixer and disables the nodes of the port.  On a stream-start
link_to_videomixer, whenever it completes, returns REMOVE and queues nothing:
it performs the splice itself, inside the probe, creating the chain, adding it
to the bin and linking the adapter to it. -/
theorem splice_in_probe_detach_on_loop (s : KmsCompositeMixer)
    (data : KmsCompositeMixerPortData) (sink_pad_template : Bool) (request_pad : Option Nat)
    (r : GstPadProbeReturn) (s' : KmsCompositeMixer)
    (h : link_to_videomixer s data GstEventType.STREAM_START sink_pad_template request_pad
      = some (r, s')) :
    (r = GstPadProbeReturn.REMOVE ∧ s'.loop = s.loop ∧ s'.timeouts = s.timeouts ∧
      ∃ calls, s'.log = s.log ++ calls ∧ (∀ c ∈ calls, enqueues c = false) ∧
        Call.gst_element_factory_make (Obj.videorate data.id) ∈ calls ∧
        Call.gst_bin_add (Obj.videorate data.id) ∈ calls ∧
        Call.gst_element_link (Obj.video_agnostic data.id) (Obj.videorate data.id) ∈ calls ∧
        (sink_pad_template = true → Call.gst_element_request_pad Obj.videomixer ∈ calls)) ∧
    (∀ (t : KmsCompositeMixer) (p : KmsCompositeMixerPortData),
      (cb_EOS_received t p GstEventType.EOS).1 = GstPadProbeReturn.OK ∧
      (cb_EOS_received t p GstEventType.EOS).2.loop = t.loop ++ [p] ∧
      (cb_EOS_received t p GstEventType.EOS).2.ports = t.ports ∧
      (cb_EOS_received t p GstEventType.EOS).2.log = t.log ++
        [ Call.gst_pad_remove_probe (Obj.video_mixer_pad p.id) p.probe_id,
          Call.gst_pad_send_event_eos (Obj.video_mixer_pad p.id),
          Call.kms_loop_idle_add_full Callback.remove_elements_from_pipeline p.id ] ∧
      (∀ c ∈ (cb_EOS_received t p GstEventType.EOS).2.log.drop t.log.length,
        structural_edit c = false) ∧
      Call.gst_element_unlink (Obj.capsfilter p.id) Obj.videomixer
        ∈ (remove_elements_from_pipeline t p).log ∧
      Call.gst_element_set_state_null (Obj.videorate p.id)
        ∈ (remove_elements_from_pipeline t p).log) := by
  constructor
  · unfold link_to_videomixer at h
    simp only [ne_eq, not_true_eq_false, if_false] at h
    have hlog : ∀ u : KmsCompositeMixer, (kms_composite_mixer_recalculate_sizes u).log =
        u.log ++ (recalculate_loop u.n_elems u.output_width u.output_height 0 u.ports).2 :=
      fun u => rfl
    cases sink_pad_template with
    | false =>
      simp only [Bool.false_eq_true, if_false, Option.some.injEq, Prod.mk.injEq] at h
      obtain ⟨hr, hs⟩ := h
      subst hs
      refine ⟨hr.symm, rfl, rfl, ?_⟩
      rw [hlog]
      simp only [List.append_assoc]
      refine ⟨_, rfl, ?_, ?_, ?_, ?_, ?_⟩
      · intro c hc
        simp only [List.mem_append, List.mem_cons, List.mem_singleton, List.not_mem_nil,
          or_false, false_or] at hc
        rcases hc with hc | hc | hc | hc
        · rcases hc with rfl | rfl | rfl | rfl | rfl | rfl | rfl | rfl | rfl | rfl | rfl | rfl
            <;> rfl
        · rw [hc]; rfl
        · by_cases hp : data.video_mixer_pad.isSome = true
          · simp only [hp, if_true, List.mem_singleton] at hc
            rw [hc]; rfl
          · have hp' : data.video_mixer_pad.isSome = false := by simpa using hp
            simp [hp'] at hc
        · exact not_enqueues_of_sets_geometry c (sets_geometry_recalculate_loop _ _ _ _ _ c hc)
      · simp
      · simp
      · simp
      · intro hf; cases hf
    | true =>
      cases request_pad with
      | none => simp at h
      | some name =>
        simp only [if_true, Option.some.injEq, Prod.mk.injEq] at h
        obtain ⟨hr, hs⟩ := h
        subst hs
        refine ⟨hr.symm, rfl, rfl, ?_⟩
        rw [hlog]
        simp only [List.append_assoc]
        refine ⟨_, rfl, ?_, ?_, ?_, ?_, ?_⟩
        · intro c hc
          simp only [Option.isSome_some, if_true, List.mem_append, List.mem_cons,
            List.mem_singleton, List.not_mem_nil, or_false] at hc
          rcases hc with hc | hc | hc | hc | hc
          · rcases hc with rfl | rfl | rfl | rfl | rfl | rfl | rfl | rfl | rfl | rfl | rfl | rfl
              <;> rfl
          · rcases hc with rfl | rfl <;> rfl
          · rw [hc]; rfl
          · rw [hc]; rfl
          · exact not_enqueues_of_sets_geometry c
              (sets_geometry_recalculate_loop _ _ _ _ _ c hc)
        · simp
        · simp
        · simp
        · intro _; simp
  · intro t p
    refine ⟨rfl, rfl, rfl, rfl, ?_, ?_, ?_⟩
    · show ∀ c ∈ (t.log ++ _).drop t.log.length, structural_edit c = false
      rw [List.drop_left]
      intro c hc
      simp only [List.mem_cons, List.mem_singleton, List.not_mem_nil, or_false] at hc
      rcases hc with rfl | rfl | rfl <;> rfl
    · unfold remove_elements_from_pipeline
      by_cases hn : t.n_elems > 0 <;>
        simp [hn, kms_composite_mixer_recalculate_sizes]
    · unfold remove_elements_from_pipeline
      by_cases hn : t.n_elems > 0 <;>
        simp [hn, kms_composite_mixer_recalculate_sizes]

/-- C14, amended, at a concrete input: the first stream-start of port 0. -/
theorem splice_in_probe_detach_on_loop_witness :
    link_to_videomixer (kms_composite_mixer_handle_port kms_composite_mixer_init 0).2
      (new_port_data 0) GstEventType.STREAM_START true (some 0)
      = some (GstPadProbeReturn.REMOVE,
          stream_start (kms_composite_mixer_handle_port kms_composite_mixer_init 0).2 0 0) ∧
    (stream_start (kms_composite_mixer_handle_port kms_composite_mixer_init 0).2 0 0).loop
      = [] :=
  ⟨by decide,
    (splice_in_probe_detach_on_loop (kms_composite_mixer_handle_port kms_composite_mixer_init 0).2
      (new_port_data 0) true (some 0) GstPadProbeReturn.REMOVE
      (stream_start (kms_composite_mixer_handle_port kms_composite_mixer_init 0).2 0 0)
      (by decide)).1.2.1⟩

/-! ## C12 -/

theorem digitChar_toNat (k : Nat) (hk : k < 10) : (Nat.digitChar k).toNat = 48 + k := by
  interval_cases k <;> rfl

theorem digit_value_digitChar (k : Nat) (hk : k < 10) :
    digit_value (Nat.digitChar k) = some k := by
  unfold digit_value
  rw [digitChar_toNat k hk]
  have h : 48 ≤ 48 + k ∧ 48 + k ≤ 57 := by omega
  rw [if_pos h]
  simp

/-- The digits printed for `n` are read back as `n` by the digit loop: the list
Nat.toDigitsCore puts in front of `ds` starts with a digit and, read after an
accumulator `acc`, gives `acc` shifted by its length plus `n`. -/
theorem toDigitsCore_parse (fuel : Nat) : ∀ (n : Nat) (ds : List Char), n < fuel →
    ∃ (c : Char) (D : List Char),
      Nat.toDigitsCore 10 fuel n ds = (c :: D) ++ ds ∧
      digit_value c ≠ none ∧
      ∀ (acc : Nat) (rest : List Char),
        parse_digits acc ((c :: D) ++ rest) = parse_digits (acc * 10 ^ (D.length + 1) + n) rest := by
  induction fuel with
  | zero => intro n ds h; omega
  | succ fuel ih =>
    intro n ds hn
    have hd : n % 10 < 10 := Nat.mod_lt _ (by decide)
    by_cases h0 : n / 10 = 0
    · refine ⟨Nat.digitChar (n % 10), [], ?_, ?_, ?_⟩
      · simp [Nat.toDigitsCore, h0]
      · rw [digit_value_digitChar _ hd]; simp
      · intro acc rest
        have hn10 : n % 10 = n := by omega
        show parse_digits acc (Nat.digitChar (n % 10) :: rest) = _
        simp only [parse_digits, digit_value_digitChar _ hd, List.length_nil, zero_add, pow_one]
        rw [hn10]
    · have hlt : n / 10 < fuel := by omega
      obtain ⟨c, D, e, hc, hp⟩ := ih (n / 10) (Nat.digitChar (n % 10) :: ds) hlt
      refine ⟨c, D ++ [Nat.digitChar (n % 10)], ?_, hc, ?_⟩
      · simp only [Nat.toDigitsCore, h0, if_false, e]
        simp
      · intro acc rest
        have e2 : (c :: (D ++ [Nat.digitChar (n % 10)])) ++ rest
            = (c :: D) ++ (Nat.digitChar (n % 10) :: rest) := by simp
        rw [e2, hp acc (Nat.digitChar (n % 10) :: rest)]
        simp only [parse_digits, digit_value_digitChar _ hd, List.length_append,
          List.length_singleton]
        congr 1
        have : n = 10 * (n / 10) + n % 10 := by omega
        generalize n / 10 = q at this
        generalize n % 10 = r at this
        rw [this, pow_succ]
        ring

theorem not_isspace_of_digit (c : Char) (h : digit_value c ≠ none) :
    g_ascii_isspace c = false ∧ c.toNat ≠ 45 ∧ c.toNat ≠ 43 := by
  unfold digit_value at h
  by_cases hc : 48 ≤ c.toNat ∧ c.toNat ≤ 57
  · unfold g_ascii_isspace
    refine ⟨?_, by omega, by omega⟩
    have h1 : (c.toNat == 32) = false := by
      rw [beq_eq_false_iff_ne]; omega
    have h2 : decide (c.toNat ≤ 13) = false := by
      rw [decide_eq_false_iff_not]; omega
    simp [h1, h2]
  · rw [if_neg hc] at h
    exact absurd rfl h

/-- What g_ascii_strtoll reads from the digits printed for `n`. -/
theorem strtoll_toDigits (n : Nat) :
    g_ascii_strtoll (Nat.toDigits 10 n) = min (n : Int) G_MAXINT64 := by
  obtain ⟨c, D, e, hc, hp⟩ := toDigitsCore_parse (n + 1) n [] (by omega)
  have e' : Nat.toDigits 10 n = c :: D := by
    unfold Nat.toDigits
    rw [e]; simp
  obtain ⟨h1, h2, h3⟩ := not_isspace_of_digit c hc
  have hv : parse_digits 0 (c :: D) = n := by
    have := hp 0 []
    simpa using this
  unfold g_ascii_strtoll
  rw [e', List.dropWhile_cons, h1]
  simp only [Bool.false_eq_true, if_false, h2, h3, hv]

theorem isPrefixOf_append (P x : List Char) : P.isPrefixOf (P ++ x) = true := by
  induction P with
  | nil => simp [List.isPrefixOf]
  | cons a t ih => simp [List.isPrefixOf, ih]

theorem to_gint_of_in_range (x : Int) (h0 : G_MININT ≤ x) (h1 : x ≤ G_MAXINT) :
    to_gint x = x := by
  unfold to_gint
  unfold G_MININT at h0
  unfold G_MAXINT at h1
  omega

/-- C12: for every id in [0, G_MAXINT], get_stream_id_from_padname applied to
AUDIO_SRC_PAD_PREFIX followed by the decimal digits of id returns id, and
pad_added_cb links that source pad to port id; a NULL name, or a name that
does not start with AUDIO_SRC_PAD_PREFIX, gives -1 and pad_added_cb links
nothing. -/
theorem stream_id_of_pad_name (P : List Char) (n : Nat) (hn : (n : Int) ≤ G_MAXINT)
    (s : KmsCompositeMixer) :
    get_stream_id_from_padname P (some (audio_src_pad_name P n)) = n ∧
    pad_added_cb s P GstPadDirection.GST_PAD_SRC (some (audio_src_pad_name P n)) =
      { s with log := s.log ++ [Call.kms_base_hub_link_audio_src n] } ∧
    get_stream_id_from_padname P none = -1 ∧
    (∀ d, pad_added_cb s P d none = s) ∧
    (∀ name : List Char, g_str_has_prefix name P = false →
      get_stream_id_from_padname P (some name) = -1 ∧
      ∀ d, pad_added_cb s P d (some name) = s) := by
  have hid : get_stream_id_from_padname P (some (audio_src_pad_name P n)) = n := by
    unfold get_stream_id_from_padname audio_src_pad_name g_str_has_prefix
      LENGTH_AUDIO_SRC_PAD_PREFIX
    simp only [isPrefixOf_append, Bool.not_true, Bool.false_eq_true, if_false,
      List.drop_left, strtoll_toDigits]
    have h64 : min (n : Int) G_MAXINT64 = n := by
      unfold G_MAXINT at hn
      unfold G_MAXINT64
      omega
    rw [h64, if_neg (by omega)]
    exact to_gint_of_in_range _ (by unfold G_MININT; omega) hn
  have hnull : get_stream_id_from_padname P none = -1 := rfl
  refine ⟨hid, ?_, hnull, ?_, ?_⟩
  · unfold pad_added_cb
    rw [hid]
    simp
  · intro d
    unfold pad_added_cb
    rw [hnull]
    by_cases hd : d = GstPadDirection.GST_PAD_SRC <;> simp [hd]
  · intro name hname
    have hm : get_stream_id_from_padname P (some name) = -1 := by
      unfold get_stream_id_from_padname
      simp [hname]
    refine ⟨hm, ?_⟩
    intro d
    unfold pad_added_cb
    rw [hm]
    by_cases hd : d = GstPadDirection.GST_PAD_SRC <;> simp [hd]

/-- C12 at concrete inputs: the prefix "src_" with the largest id and with 17. -/
theorem stream_id_of_pad_name_witness :
    get_stream_id_from_padname "src_".toList (some "src_2147483647".toList) = 2147483647 ∧
    get_stream_id_from_padname "src_".toList (some (audio_src_pad_name "src_".toList 17)) = 17 ∧
    get_stream_id_from_padname "src_".toList (some "sink_17".toList) = -1 := by
  have h := stream_id_of_pad_name "src_".toList 17 (by decide) kms_composite_mixer_init
  exact ⟨by decide, h.1, by decide⟩

/-! ## C17 -/

/-- When get_stream_id_from_padname returns a non-negative id, the name starts
with the prefix, the parsed value is at most G_MAXINT and the id is its low 32
bits; the id equals the parsed value whenever that value is at least G_MININT. -/
theorem stream_id_nonneg (P name : List Char)
    (h : 0 ≤ get_stream_id_from_padname P (some name)) :
    g_str_has_prefix name P = true ∧
    g_ascii_strtoll (name.drop (LENGTH_AUDIO_SRC_PAD_PREFIX P)) ≤ G_MAXINT ∧
    get_stream_id_from_padname P (some name)
      = to_gint (g_ascii_strtoll (name.drop (LENGTH_AUDIO_SRC_PAD_PREFIX P))) ∧
    (G_MININT ≤ g_ascii_strtoll (name.drop (LENGTH_AUDIO_SRC_PAD_PREFIX P)) →
      get_stream_id_from_padname P (some name)
        = g_ascii_strtoll (name.drop (LENGTH_AUDIO_SRC_PAD_PREFIX P))) := by
  unfold get_stream_id_from_padname at h ⊢
  by_cases hp : g_str_has_prefix name P = true
  · simp only [hp, Bool.not_true, Bool.false_eq_true, if_false] at h ⊢
    by_cases hg : g_ascii_strtoll (name.drop (LENGTH_AUDIO_SRC_PAD_PREFIX P)) > G_MAXINT
    · rw [if_pos hg] at h
      omega
    · rw [if_neg hg]
      refine ⟨trivial, by omega, rfl, ?_⟩
      intro hlow
      exact to_gint_of_in_range _ hlow (by omega)
  · have hp' : g_str_has_prefix name P = false := by simpa using hp
    simp only [hp', Bool.not_false, if_true] at h
    omega

/-- C17, the code at a failing input: for any prefix, the pad name made of the
prefix and "-4294967295" has a suffix that g_ascii_strtoll parses as
-4294967295, below G_MININT; get_stream_id_from_padname only tests
id > G_MAXINT, so the value is cut to its low 32 bits and the function returns
1; pad_added_cb then links the pad to port 1. -/
theorem stream_id_truncates_below_minint (P : List Char) (s : KmsCompositeMixer) :
    g_ascii_strtoll "-4294967295".toList = -4294967295 ∧
    (-4294967295 : Int) < G_MININT ∧
    get_stream_id_from_padname P (some (P ++ "-4294967295".toList)) = 1 ∧
    pad_added_cb s P GstPadDirection.GST_PAD_SRC (some (P ++ "-4294967295".toList)) =
      { s with log := s.log ++ [Call.kms_base_hub_link_audio_src 1] } ∧
    get_stream_id_from_padname "src_".toList (some "src_-4294967295".toList) = 1 := by
  have hv : g_ascii_strtoll "-4294967295".toList = -4294967295 := by decide
  have hid : get_stream_id_from_padname P (some (P ++ "-4294967295".toList)) = 1 := by
    unfold get_stream_id_from_padname g_str_has_prefix LENGTH_AUDIO_SRC_PAD_PREFIX
    simp only [isPrefixOf_append, Bool.not_true, Bool.false_eq_true, if_false, List.drop_left, hv]
    decide
  refine ⟨hv, by decide, hid, ?_, by decide⟩
  unfold pad_added_cb
  rw [hid]
  simp

/-! ## C18 -/

theorem companion_port_eq (port1 : Nat) (h : port1 < 65536) :
    companion_port port1 < 65536 ∧
    (port1 % 2 = 0 → companion_port port1 = port1 + 1) ∧
    (port1 % 2 = 1 → companion_port port1 + 1 = port1) := by
  unfold companion_port to_guint16
  by_cases he : port1 % 2 = 0
  · rw [if_pos he]
    have h1 : ((port1 : Int) + 1) % 65536 = (port1 : Int) + 1 := by omega
    rw [h1]
    refine ⟨by omega, fun _ => by omega, fun ho => by omega⟩
  · rw [if_neg he]
    have h1 : ((port1 : Int) - 1) % 65536 = (port1 : Int) - 1 := by omega
    rw [h1]
    refine ⟨by omega, fun h0 => absurd h0 he, fun _ => by omega⟩

theorem get_socket_port_lt (socket : GSocket) (local_address : Bool) :
    kms_rtp_end_point_get_socket_port socket local_address < 65536 := by
  unfold kms_rtp_end_point_get_socket_port to_guint16
  by_cases h : local_address = true
  · rw [if_pos h]; omega
  · rw [if_neg h]; omega

theorem get_socket_port_eq (socket : GSocket) (h : socket.port < 65536) :
    kms_rtp_end_point_get_socket_port socket true = socket.port := by
  unfold kms_rtp_end_point_get_socket_port to_guint16
  rw [if_pos rfl]
  omega

/-- C18, refuted as stated: the first socket is given port 1 by the system, so
port1 = 1 and the companion request is port2 = 0; a bind to port 0 asks for any
free port and the second socket lands on 40001.  The function returns TRUE
with the socket on the odd port 40001 as RTP and the socket on port 1 as RTCP:
RTP is not on an even port and RTCP is not on the RTP port plus one. -/
theorem rtp_rtcp_sockets_port_one_counterexample :
    companion_port 1 = 0 ∧
    (kms_rtp_end_point_get_rtp_rtcp_sockets
      { first := { g_socket_new := some 3, g_socket_bind := true, any_port := 1 },
        local_address := true,
        second := fun _ => { g_socket_new := some 4, g_socket_bind := true, any_port := 40001 } }
      (some none) (some none))
      = { ret := true,
          rtp := some (some { fd := 4, port := 40001 }),
          rtcp := some (some { fd := 3, port := 1 }),
          closed := [] } ∧
    ¬ ((40001 : Nat) % 2 = 0) ∧ ¬ ((1 : Nat) = 40001 + 1) := by
  refine ⟨by decide, by decide, by decide, by decide⟩

/-- C18, amended: let the first socket be created and bound, s1 being that
socket on the port the system gave it, and let port1 be the port the function
reads from s1.  port1 lies in [0, 65535] and the companion port2 is port1 + 1
when port1 is even and port1 - 1 when it is odd, with no wrap-around of the
16-bit value.  When the address of s1 can be read and its port lies in
[2, 65535], and the second socket is created and bound, the function returns
TRUE, closes nothing, and the socket returned as RTP is on an even port with
the socket returned as RTCP on that port plus one (s1 and the second socket on
port1 + 1 for an even port1, the second socket on port1 - 1 and s1 for an odd
one).  When the second socket cannot be created or cannot be bound, the
function returns FALSE, s1 is closed, a second socket that was created is
closed too, and both output cells keep their content. -/
theorem rtp_rtcp_sockets_pairing (env : AttemptEnv) (fd1 : Nat)
    (rtp0 rtcp0 : Option GSocket)
    (hnew : env.first.g_socket_new = some fd1)
    (hbind : env.first.g_socket_bind = true) :
    let s1 : GSocket := { fd := fd1, port := env.first.any_port }
    let port1 := kms_rtp_end_point_get_socket_port s1 env.local_address
    let port2 := companion_port port1
    let r := kms_rtp_end_point_get_rtp_rtcp_sockets env (some rtp0) (some rtcp0)
    (port1 < 65536 ∧ port2 < 65536 ∧
      (port1 % 2 = 0 → port2 = port1 + 1) ∧
      (port1 % 2 = 1 → port2 + 1 = port1)) ∧
    (env.local_address = true → 2 ≤ env.first.any_port → env.first.any_port < 65536 →
      ∀ fd2 : Nat,
        (env.second port2).g_socket_new = some fd2 →
        (env.second port2).g_socket_bind = true →
        port1 = s1.port ∧ r.ret = true ∧ r.closed = [] ∧
        (∃ a b : GSocket,
          r.rtp = some (some a) ∧ r.rtcp = some (some b) ∧
          a.port % 2 = 0 ∧ b.port = a.port + 1) ∧
        (port1 % 2 = 0 →
          r.rtp = some (some s1) ∧
          r.rtcp = some (some { fd := fd2, port := port1 + 1 })) ∧
        (port1 % 2 = 1 →
          r.rtp = some (some { fd := fd2, port := port1 - 1 }) ∧
          r.rtcp = some (some s1))) ∧
    (((env.second port2).g_socket_new = none ∨ (env.second port2).g_socket_bind = false) →
      r.ret = false ∧ s1 ∈ r.closed ∧ r.rtp = some rtp0 ∧ r.rtcp = some rtcp0 ∧
      (∀ fd2 : Nat, (env.second port2).g_socket_new = some fd2 →
        r.closed = [{ fd := fd2, port := 0 }, s1])) := by
  intro s1 port1 port2 r
  have hlt : port1 < 65536 := get_socket_port_lt s1 env.local_address
  have hc := companion_port_eq port1 hlt
  have ho1 : kms_rtp_end_point_open_socket env.first 0 = (some s1, []) := by
    unfold kms_rtp_end_point_open_socket
    rw [hnew]
    simp only [hbind, if_true]
  have hr : r = kms_rtp_end_point_get_rtp_rtcp_sockets env (some rtp0) (some rtcp0) := rfl
  refine ⟨⟨hlt, hc⟩, ?_, ?_⟩
  · intro haddr h2 hport fd2 hnew2 hbind2
    have hp1 : port1 = env.first.any_port := by
      show kms_rtp_end_point_get_socket_port s1 env.local_address = env.first.any_port
      rw [haddr]
      exact get_socket_port_eq s1 hport
    have hp1' : kms_rtp_end_point_get_socket_port s1 env.local_address = port1 := rfl
    have hp2 : port2 = companion_port port1 := rfl
    have hne : port2 ≠ 0 := by
      by_cases he : port1 % 2 = 0
      · have := hc.2.1 he; omega
      · have ho : port1 % 2 = 1 := by omega
        have := hc.2.2 ho; omega
    have ho2 : kms_rtp_end_point_open_socket (env.second port2) port2
        = (some { fd := fd2, port := port2 }, []) := by
      unfold kms_rtp_end_point_open_socket
      rw [hnew2]
      simp only [hbind2, if_true, if_neg hne]
    have hrv : r = if port1 < port2 then
          { ret := true, rtp := some (some s1),
            rtcp := some (some { fd := fd2, port := port2 }), closed := [] }
        else
          { ret := true, rtp := some (some { fd := fd2, port := port2 }),
            rtcp := some (some s1), closed := [] } := by
      rw [hr]
      unfold kms_rtp_end_point_get_rtp_rtcp_sockets
      simp only [ho1, hp1', ← hp2, ho2, List.append_nil]
    by_cases he : port1 % 2 = 0
    · have h21 : port2 = port1 + 1 := hc.2.1 he
      have hlt2 : port1 < port2 := by omega
      rw [if_pos hlt2] at hrv
      have hs1p : s1.port = port1 := hp1.symm
      refine ⟨hp1, by rw [hrv], by rw [hrv], ⟨s1, { fd := fd2, port := port2 }, by rw [hrv],
        by rw [hrv], ?_, ?_⟩, ?_, ?_⟩
      · rw [hs1p]; exact he
      · show port2 = s1.port + 1
        rw [hs1p]; exact h21
      · intro _
        rw [hrv, h21]
        exact ⟨rfl, rfl⟩
      · intro ho; omega
    · have ho : port1 % 2 = 1 := by omega
      have h21 : port2 + 1 = port1 := hc.2.2 ho
      have hlt2 : ¬ port1 < port2 := by omega
      rw [if_neg hlt2] at hrv
      have hs1p : s1.port = port1 := hp1.symm
      have h22 : port2 = port1 - 1 := by omega
      refine ⟨hp1, by rw [hrv], by rw [hrv], ⟨{ fd := fd2, port := port2 }, s1, by rw [hrv],
        by rw [hrv], ?_, ?_⟩, ?_, ?_⟩
      · show port2 % 2 = 0
        omega
      · show s1.port = port2 + 1
        rw [hs1p]; omega
      · intro he0; omega
      · intro _
        rw [hrv, h22]
        exact ⟨rfl, rfl⟩
  · intro hfail
    have hp1' : kms_rtp_end_point_get_socket_port s1 env.local_address = port1 := rfl
    have hp2 : port2 = companion_port port1 := rfl
    cases hn : (env.second port2).g_socket_new with
    | none =>
      have ho2 : kms_rtp_end_point_open_socket (env.second port2) port2 = (none, []) := by
        unfold kms_rtp_end_point_open_socket
        rw [hn]
      have hrv : r = { ret := false, rtp := some rtp0, rtcp := some rtcp0, closed := [s1] } := by
        rw [hr]
        unfold kms_rtp_end_point_get_rtp_rtcp_sockets
        simp only [ho1, hp1', ← hp2, ho2]
        rfl
      rw [hrv]
      refine ⟨rfl, by simp, rfl, rfl, ?_⟩
      intro fd2 h
      cases h
    | some fd2 =>
      have hb : (env.second port2).g_socket_bind = false := by
        rcases hfail with h | h
        · rw [hn] at h; cases h
        · exact h
      have ho2 : kms_rtp_end_point_open_socket (env.second port2) port2
          = (none, [{ fd := fd2, port := 0 }]) := by
        unfold kms_rtp_end_point_open_socket
        rw [hn]
        simp only [hb, Bool.false_eq_true, if_false]
      have hrv : r =
          { ret := false, rtp := some rtp0, rtcp := some rtcp0,
            closed := [{ fd := fd2, port := 0 }, s1] } := by
        rw [hr]
        unfold kms_rtp_end_point_get_rtp_rtcp_sockets
        simp only [ho1, hp1', ← hp2, ho2]
        rfl
      rw [hrv]
      refine ⟨rfl, by simp, rfl, rfl, ?_⟩
      intro fd2' h
      cases h
      rfl

/-- C18 at a concrete input: the first socket gets the odd port 40001, the
second is opened on 40000 and comes back as RTP. -/
theorem rtp_rtcp_sockets_pairing_witness :
    companion_port 40001 = 40000 ∧
    (kms_rtp_end_point_get_rtp_rtcp_sockets
      { first := { g_socket_new := some 3, g_socket_bind := true, any_port := 40001 },
        local_address := true,
        second := fun _ => { g_socket_new := some 4, g_socket_bind := true, any_port := 50000 } }
      (some none) (some none)).rtp = some (some { fd := 4, port := 40000 }) ∧
    (kms_rtp_end_point_get_rtp_rtcp_sockets
      { first := { g_socket_new := some 3, g_socket_bind := true, any_port := 40001 },
        local_address := true,
        second := fun _ => { g_socket_new := some 4, g_socket_bind := true, any_port := 50000 } }
      (some none) (some none)).rtcp = some (some { fd := 3, port := 40001 }) := by
  have h := rtp_rtcp_sockets_pairing
    { first := { g_socket_new := some 3, g_socket_bind := true, any_port := 40001 },
      local_address := true,
      second := fun _ => { g_socket_new := some 4, g_socket_bind := true, any_port := 50000 } }
    3 none none rfl rfl
  have h2 := (h.2.1 rfl (by decide) (by decide) 4 rfl rfl).2.2.2.2.2 (by decide)
  exact ⟨by decide, h2.1, h2.2⟩

/-! ## C19 -/

end Kms
